import Mathlib

/-!
Verification development for the Shopee order-synchronisation service
(`syncShopeeOrders2025`).  The definitions below are a shallow embedding of
the JavaScript sources:

* `src/services/shopeeApi.js` — request signing (`_generateSignature`),
  envelope handling (`_callApi`), `getOrderList` parameter construction,
  `validateToken`;
* `src/db/orderRepository.js` — the transactional upsert protocol
  (`upsertOrder`, `_upsertOrderBasic`, `_upsertLogistic`,
  `_upsertLogisticHistories`, `_upsertOrderItems`);
* `src/services/orderService.js` — the ingestion orchestrator
  (`collectOrders`, `_processOrderDetails`, `_extractShippingInfo`,
  `_saveTrackingNumbers`, `_processUnupdatedTrackingNumbers`,
  `fixIncompleteLogisticInfo`);
* `src/unnamed/part_003` — the older orchestrator revision containing the
  shipment-list pagination loop (`_fetchAllShipmentInfo`).

JavaScript values are modelled with `Option` for possibly-absent fields and
explicit truthiness helpers (the empty string and the number 0 are falsy).
The PostgreSQL state is a record of lists of rows; `uuidv4()` is modelled by
a fresh-identifier counter, and `CURRENT_TIMESTAMP` by a `now : Nat`
parameter (constant within one transaction, as in PostgreSQL).  Failures of
individual SQL statements are injected through a `FailEnv` so that the
error-propagation behaviour of the source can be stated and settled.
-/

deriving instance DecidableEq for Except

namespace Shopee

/-! ## JavaScript value helpers -/

/-- Truthiness of a possibly absent string: `null`, `undefined` and the
empty string are falsy, every other string is truthy. -/
def strTruthy : Option String → Bool
  | none => false
  | some s => !(s == "")

/-- `a || b` on possibly absent strings (JS returns `b` when `a` is falsy). -/
def jsOrS (a b : Option String) : Option String :=
  if strTruthy a then a else b

/-- `a || d` where the JS default is a plain string. -/
def strOr (a : Option String) (d : String) : String :=
  match a with
  | some s => if s == "" then d else s
  | none => d

/-- `a || null`: normalises a falsy string to `none`. -/
def strOpt (a : Option String) : Option String :=
  if strTruthy a then a else none

/-- `a || d` on possibly absent numbers: 0 is falsy in JS. -/
def numOr (a : Option Int) (d : Int) : Int :=
  match a with
  | some n => if n == 0 then d else n
  | none => d

/-- First truthy value of a `||` chain of possibly absent strings
(`none` when every link is falsy, which agrees with every truthiness
check performed on the chain value in the source). -/
def firstTruthy : List (Option String) → Option String
  | [] => none
  | a :: rest => if strTruthy a then a else firstTruthy rest

/-- `t ? new Date(t * 1000) : null`: epoch seconds to epoch milliseconds,
where the (falsy) timestamp 0 also becomes `null`. -/
def toEpochMs : Option Nat → Option Nat
  | none => none
  | some t => if t == 0 then none else some (t * 1000)

/-! ## Signer (`shopeeApi._generateSignature`)

The source builds a base string
`{partner_id}{path}{timestamp}` and appends the access token and the shop
id only when they are truthy, then computes
`crypto.createHmac('sha256', partnerKey).update(baseString).digest('hex')`.
The HMAC-SHA256 primitive is implemented below in full (FIPS 180-4 /
RFC 2104) over byte lists so that the signature function is executable. -/

/-- UTF-8 encoding of one character (code point to bytes). -/
def utf8EncodeChar (c : Char) : List Nat :=
  let n := c.toNat
  if n < 128 then [n]
  else if n < 2048 then [192 + n / 64, 128 + n % 64]
  else if n < 65536 then [224 + n / 4096, 128 + (n / 64) % 64, 128 + n % 64]
  else [240 + n / 262144, 128 + (n / 4096) % 64, 128 + (n / 64) % 64, 128 + n % 64]

/-- UTF-8 encoding of a string as a byte list. -/
def utf8Encode (s : String) : List Nat :=
  s.data.foldr (fun c acc => utf8EncodeChar c ++ acc) []

/-- Truncation to a 32-bit word. -/
def w32 (x : Nat) : Nat := x % 4294967296

/-- 32-bit right rotation. -/
def rotr32 (x n : Nat) : Nat := w32 ((x >>> n) ||| (x <<< (32 - n)))

/-- SHA-256 `Ch` function. -/
def shaCh (e f g : Nat) : Nat := (e &&& f) ^^^ ((e ^^^ 4294967295) &&& g)

/-- SHA-256 `Maj` function. -/
def shaMaj (a b c : Nat) : Nat := (a &&& b) ^^^ (a &&& c) ^^^ (b &&& c)

/-- SHA-256 big sigma 0. -/
def bigSigma0 (x : Nat) : Nat := rotr32 x 2 ^^^ rotr32 x 13 ^^^ rotr32 x 22

/-- SHA-256 big sigma 1. -/
def bigSigma1 (x : Nat) : Nat := rotr32 x 6 ^^^ rotr32 x 11 ^^^ rotr32 x 25

/-- SHA-256 small sigma 0. -/
def smallSigma0 (x : Nat) : Nat := rotr32 x 7 ^^^ rotr32 x 18 ^^^ (x >>> 3)

/-- SHA-256 small sigma 1. -/
def smallSigma1 (x : Nat) : Nat := rotr32 x 17 ^^^ rotr32 x 19 ^^^ (x >>> 10)

/-- The eight SHA-256 working variables. -/
structure Hash8 where
  a : Nat
  b : Nat
  c : Nat
  d : Nat
  e : Nat
  f : Nat
  g : Nat
  h : Nat
deriving Repr, DecidableEq

/-- SHA-256 initial hash value. -/
def initH : Hash8 :=
  ⟨1779033703, 3144134277, 1013904242, 2773480762,
   1359893119, 2600822924, 528734635, 1541459225⟩

/-- The 64 SHA-256 round constants. -/
def shaK : List Nat :=
  [1116352408, 1899447441, 3049323471, 3921009573, 961987163, 1508970993,
   2453635748, 2870763221, 3624381080, 310598401, 607225278, 1426881987,
   1925078388, 2162078206, 2614888103, 3248222580, 3835390401, 4022224774,
   264347078, 604807628, 770255983, 1249150122, 1555081692, 1996064986,
   2554220882, 2821834349, 2952996808, 3210313671, 3336571891, 3584528711,
   113926993, 338241895, 666307205, 773529912, 1294757372, 1396182291,
   1695183700, 1986661051, 2177026350, 2456956037, 2730485921, 2820302411,
   3259730800, 3345764771, 3516065817, 3600352804, 4094571909, 275423344,
   430227734, 506948616, 659060556, 883997877, 958139571, 1322822218,
   1537002063, 1747873779, 1955562222, 2024104815, 2227730452, 2361852424,
   2428436474, 2756734187, 3204031479, 3329325298]

/-- Extends the (reversed) message schedule by `n` further words. -/
def schedRev (n : Nat) (rws : List Nat) : List Nat :=
  match n with
  | 0 => rws
  | m + 1 =>
      schedRev m
        (w32 (smallSigma1 (rws.getD 1 0) + rws.getD 6 0 +
              smallSigma0 (rws.getD 14 0) + rws.getD 15 0) :: rws)

/-- The 64-word message schedule of one 16-word block. -/
def schedule (block : List Nat) : List Nat :=
  (schedRev 48 block.reverse).reverse

/-- One SHA-256 round with `kw` the (truncated) sum of round constant and
schedule word. -/
def shaRound (st : Hash8) (kw : Nat) : Hash8 :=
  let t1 := w32 (st.h + bigSigma1 st.e + shaCh st.e st.f st.g + kw)
  let t2 := w32 (bigSigma0 st.a + shaMaj st.a st.b st.c)
  ⟨w32 (t1 + t2), st.a, st.b, st.c, w32 (st.d + t1), st.e, st.f, st.g⟩

/-- SHA-256 compression of one block into the running hash. -/
def compress (h0 : Hash8) (block : List Nat) : Hash8 :=
  let ws := schedule block
  let st := (shaK.zip ws).foldl (fun st kw => shaRound st (w32 (kw.1 + kw.2))) h0
  ⟨w32 (h0.a + st.a), w32 (h0.b + st.b), w32 (h0.c + st.c), w32 (h0.d + st.d),
   w32 (h0.e + st.e), w32 (h0.f + st.f), w32 (h0.g + st.g), w32 (h0.h + st.h)⟩

/-- Big-endian 8-byte encoding of a (bit-) length. -/
def lenBytes (n : Nat) : List Nat :=
  [n >>> 56 % 256, n >>> 48 % 256, n >>> 40 % 256, n >>> 32 % 256,
   n >>> 24 % 256, n >>> 16 % 256, n >>> 8 % 256, n % 256]

/-- SHA-256 message padding: `0x80`, zeros to 56 mod 64, 8-byte bit length. -/
def padMessage (msg : List Nat) : List Nat :=
  let len := msg.length
  let zeros := (64 + 56 - (len + 1) % 64) % 64
  msg ++ [128] ++ List.replicate zeros 0 ++ lenBytes (len * 8)

/-- Splits a byte list into 64-byte chunks. -/
def toBlocks : List Nat → List (List Nat)
  | [] => []
  | b :: bs => ((b :: bs).take 64) :: toBlocks ((b :: bs).drop 64)
termination_by l => l.length
decreasing_by simp; omega

/-- Groups bytes into big-endian 32-bit words. -/
def toWords : List Nat → List Nat
  | a :: b :: c :: d :: rest => (((a * 256 + b) * 256 + c) * 256 + d) :: toWords rest
  | _ => []

/-- Big-endian bytes of one 32-bit word. -/
def wordBytes (w : Nat) : List Nat :=
  [w >>> 24 % 256, w >>> 16 % 256, w >>> 8 % 256, w % 256]

/-- SHA-256 digest (32 bytes) of a byte list. -/
def sha256 (msg : List Nat) : List Nat :=
  let h := ((toBlocks (padMessage msg)).map toWords).foldl compress initH
  wordBytes h.a ++ wordBytes h.b ++ wordBytes h.c ++ wordBytes h.d ++
  wordBytes h.e ++ wordBytes h.f ++ wordBytes h.g ++ wordBytes h.h

/-- HMAC-SHA256 (RFC 2104) over byte lists, as computed by
`crypto.createHmac('sha256', key)`. -/
def hmacSha256 (key msg : List Nat) : List Nat :=
  let k0 := if 64 < key.length then sha256 key else key
  let k := k0 ++ List.replicate (64 - k0.length) 0
  let ipad := k.map (fun b => b ^^^ 54)
  let opad := k.map (fun b => b ^^^ 92)
  sha256 (opad ++ sha256 (ipad ++ msg))

/-- One lowercase hexadecimal digit. -/
def hexDigit (n : Nat) : Char :=
  if n < 10 then Char.ofNat (48 + n) else Char.ofNat (87 + n)

/-- Lowercase hexadecimal rendering of a byte list, as produced by
`.digest('hex')`. -/
def bytesToHex (bs : List Nat) : String :=
  String.mk (bs.foldr (fun b acc => hexDigit (b / 16) :: hexDigit (b % 16) :: acc) [])

/-- The signature base string of `_generateSignature`
(`shopeeApi.js:39-61`): `partnerId ++ path ++ timestamp`, then the access
token and the shop id are appended only when truthy. -/
def signBaseString (partnerId path : String) (timestamp : Nat)
    (accessToken shopId : Option String) : String :=
  let base := partnerId ++ path ++ toString timestamp
  let base := if strTruthy accessToken then base ++ accessToken.getD "" else base
  if strTruthy shopId then base ++ shopId.getD "" else base

/-- `_generateSignature` (`shopeeApi.js:39-61`): lowercase hex HMAC-SHA256
of the base string, keyed by the partner key. -/
def generateSignature (partnerKey partnerId path : String) (timestamp : Nat)
    (accessToken shopId : Option String) : String :=
  bytesToHex (hmacSha256 (utf8Encode partnerKey)
    (utf8Encode (signBaseString partnerId path timestamp accessToken shopId)))

/-! ## Relational state

Rows of the four order tables (`toms_shopee_order`, `toms_shopee_logistic`,
`toms_shopee_logistic_history`, `toms_shopee_order_item`) and of the shop
view used by `collectOrders` (`shopee_shop` joined to `company_platform`).
UUID columns are modelled by naturals drawn from a fresh-id counter;
timestamp columns by naturals. -/

/-- A `shopee_shop` row joined with its `company_platform` row, as selected
by `collectOrders` (`orderService.js:33-38`). -/
structure ShopRow where
  id : Nat
  shop_id : String
  access_token : Option String
  refresh_token : Option String
  expire_at : Option Int
  deleted : Option Nat
  isactive : Bool
  companyid : Option String
  issandbox : Bool
deriving Repr, DecidableEq

/-- A `toms_shopee_order` row (columns of `orderRepository.js:140-168`). -/
structure OrderRow where
  id : Nat
  platform : String
  order_num : String
  status : Option String
  action_status : String
  other_status : String
  country_code : String
  currency : String
  order_date : Option Nat
  pay_date : Option Nat
  day_to_ship : Option Nat
  price : Int
  company_id : String
  shop_id : String
  export_declaration_no : Option String
  simple_memo : Option String
  created_at : Nat
  updated_at : Nat
  arrange_shipment_at : Option Nat
  print_at : Option Nat
  cancel_by : Option String
  cancel_reason : Option String
  fulfillment_flag : String
  message_to_seller : Option String
deriving Repr, DecidableEq

/-- A `toms_shopee_logistic` row (columns of `orderRepository.js:221-236`). -/
structure LogisticRow where
  id : Nat
  name : Option String
  tracking_no : Option String
  estimated_shipping_fee : Option Int
  actual_shipping_cost : Option Int
  platform : String
  toms_order_id : Nat
  created_at : Nat
  updated_at : Nat
deriving Repr, DecidableEq

/-- A `toms_shopee_logistic_history` row (`orderRepository.js:288-300`). -/
structure HistoryRow where
  id : Nat
  tracking_no : Option String
  logistic_date : Option Nat
  location : Option String
  logistic_status : String
  created_at : Nat
  updated_at : Nat
  toms_logistic_id : Nat
deriving Repr, DecidableEq

/-- A `toms_shopee_order_item` row (columns of `orderRepository.js:398-411`). -/
structure ItemRow where
  id : Nat
  platform_item_id : Option String
  variation_sku : String
  promo_variation_sku : Option String
  name : String
  option : Option String
  price : Int
  original_price : Int
  qty : Int
  weight : Int
  index : Nat
  platform : String
  tracking_no : Option String
  toms_order_id : Nat
  toms_logistic_id : Nat
  toms_item_id : Nat
  company_id : String
  created_at : Nat
  updated_at : Nat
  image_url : Option String
deriving Repr, DecidableEq

/-- The database state.  `nextId` models the stream of `uuidv4()` values:
every minted identifier is the current counter value, which is then
incremented, so distinct mints never collide. -/
structure DB where
  shops : List ShopRow := []
  orders : List OrderRow := []
  logistics : List LogisticRow := []
  histories : List HistoryRow := []
  items : List ItemRow := []
  nextId : Nat := 0
deriving Repr, DecidableEq

/-- Mints a fresh identifier (`uuidv4()`). -/
def freshId (db : DB) : Nat × DB :=
  (db.nextId, { db with nextId := db.nextId + 1 })

/-- `WHERE order_num = $1 AND platform = 'shopee'`. -/
def orderKeyMatch (sn : String) (o : OrderRow) : Bool :=
  o.order_num == sn && o.platform == "shopee"

/-- `SELECT id FROM toms_shopee_order WHERE order_num = $1 AND platform =
'shopee'` (`oneOrNone`, unique under the well-formedness invariant). -/
def findOrderByNum (db : DB) (sn : String) : Option OrderRow :=
  db.orders.find? (orderKeyMatch sn)

/-- `SELECT ... FROM toms_shopee_logistic WHERE toms_order_id = $1`. -/
def findLogisticByOrder (db : DB) (oid : Nat) : Option LogisticRow :=
  db.logistics.find? (fun l => l.toms_order_id == oid)

/-- The items of one order, in table order (inserts append, so this is
insertion order, which is positional-index order for a rewritten order). -/
def itemsOfOrder (db : DB) (oid : Nat) : List ItemRow :=
  db.items.filter (fun i => i.toms_order_id == oid)

/-- SQL `=` on a nullable string column: a NULL operand never matches. -/
def sqlEqS : Option String → Option String → Bool
  | some a, some b => a == b
  | _, _ => false

/-- SQL `=` on a nullable timestamp column: a NULL operand never matches. -/
def sqlEqN : Option Nat → Option Nat → Bool
  | some a, some b => a == b
  | _, _ => false

/-- Well-formedness: the uniqueness guarantees of the schema (unique
`(platform, order_num)` business key, unique order primary keys, the
UNIQUE constraint on `logistic.toms_order_id`) together with freshness of
the id counter. -/
def WF (db : DB) : Prop :=
  db.orders.Pairwise (fun a b => a.order_num ≠ b.order_num ∨ a.platform ≠ b.platform) ∧
  db.orders.Pairwise (fun a b => a.id ≠ b.id) ∧
  db.logistics.Pairwise (fun a b => a.toms_order_id ≠ b.toms_order_id) ∧
  (∀ o ∈ db.orders, o.id < db.nextId) ∧
  (∀ l ∈ db.logistics, l.id < db.nextId)

instance (db : DB) : Decidable (WF db) := by
  unfold WF; infer_instance

/-! ## Fault injection

Each SQL statement of the upsert protocol can be made to throw, so that the
error handling of `orderRepository.js` can be stated.  The default
environment (`benign`) never fails. -/

/-- Which statements of one `upsertOrder` run throw. -/
structure FailEnv where
  failOrderBasic : Bool := false
  failLogistic : Bool := false
  failSyntheticLogistic : Bool := false
  failTempLogistic : Bool := false
  histFails : List Nat := []
  failItemDelete : Bool := false
  itemFails : List Nat := []
deriving Repr, DecidableEq

/-- The environment in which every statement succeeds. -/
def benign : FailEnv := {}

/-! ## Order repository (`orderRepository.js`) -/

/-- `action_status` mapping (`orderRepository.js:114-127`). -/
def actionStatusOf (st : Option String) : String :=
  if st == some "READY_TO_SHIP" then "READY_TO_PRINT"
  else if st == some "SHIPPED" then "EXPORTED"
  else if st == some "CANCELLED" then "REQUEST_CANCEL"
  else "ORDER"

/-- `fulfillment_flag` mapping (`orderRepository.js:116-138`): default
`SELLER`. -/
def fulfillmentFlagOf (ff : Option String) : String :=
  if ff == some "fulfilled_by_cb_seller" then "SELLER"
  else if ff == some "fulfilled_by_shopee" then "SHOPEE"
  else "SELLER"

/-- A shipment-history event handed to the repository. -/
structure HistoryInput where
  tracking_no : Option String
  tracking_date : Option Nat
  status : Option String
  location : Option String
deriving Repr, DecidableEq

/-- The `shipping` object handed to the repository (built by
`_extractShippingInfo` or the shipment map). -/
structure ShippingInfo where
  shipping_carrier : Option String
  shipping_carrier_name : Option String
  tracking_number : Option String
  estimated_shipping_fee : Option Int
  actual_shipping_cost : Option Int
  histories : List HistoryInput
deriving Repr, DecidableEq

/-- A formatted line item handed to the repository
(`orderService.js:230-240`). -/
structure ItemData where
  item_id : Nat
  item_sku : Option String
  item_name : Option String
  variation_name : Option String
  model_discounted_price : Option Int
  model_original_price : Option Int
  model_quantity_purchased : Option Int
  weight : Option Int
  image_url : Option String
deriving Repr, DecidableEq

/-- The order detail handed to `upsertOrder` (the formatted order of
`orderService.js:243-247`). -/
structure OrderData where
  order_sn : String
  order_status : Option String
  fulfillment_flag : Option String
  region : Option String
  currency : Option String
  create_time : Option Nat
  pay_time : Option Nat
  ship_by_date : Option Nat
  total_amount : Option Int
  cancel_by : Option String
  cancel_reason : Option String
  message_to_seller : Option String
  shipping : Option ShippingInfo
  items : List ItemData
deriving Repr, DecidableEq

/-- The order row written by `_upsertOrderBasic` (`orderRepository.js:140-192`). -/
def mkOrderRow (od : OrderData) (companyId shopId : String) (orderId now : Nat) :
    OrderRow :=
  { id := orderId
    platform := "shopee"
    order_num := od.order_sn
    status := od.order_status
    action_status := actionStatusOf od.order_status
    other_status := "NONE"
    country_code := strOr od.region "KR"
    currency := strOr od.currency "KRW"
    order_date := toEpochMs od.create_time
    pay_date := toEpochMs od.pay_time
    day_to_ship := toEpochMs od.ship_by_date
    price := numOr od.total_amount 0
    company_id := companyId
    shop_id := shopId
    export_declaration_no := none
    simple_memo := none
    created_at := now
    updated_at := now
    arrange_shipment_at := none
    print_at := none
    cancel_by := strOpt od.cancel_by
    cancel_reason := strOpt od.cancel_reason
    fulfillment_flag := fulfillmentFlagOf od.fulfillment_flag
    message_to_seller := strOpt od.message_to_seller }

/-- `ON CONFLICT (id) DO UPDATE SET ...` column list of
`_upsertOrderBasic` (`orderRepository.js:154-166`). -/
def orderConflictUpdate (old new : OrderRow) : OrderRow :=
  { old with
    status := new.status
    action_status := new.action_status
    other_status := new.other_status
    day_to_ship := new.day_to_ship
    price := new.price
    updated_at := new.updated_at
    arrange_shipment_at := new.arrange_shipment_at
    print_at := new.print_at
    cancel_by := new.cancel_by
    cancel_reason := new.cancel_reason
    fulfillment_flag := new.fulfillment_flag
    message_to_seller := new.message_to_seller }

/-- `_upsertOrderBasic` (`orderRepository.js:103-202`): resolve the order id
by business key (reuse on hit, mint on miss), then insert with
`ON CONFLICT (id) DO UPDATE`. -/
def upsertOrderBasic (env : FailEnv) (od : OrderData) (companyId shopId : String)
    (now : Nat) (db : DB) : Except String Nat × DB :=
  let idDb : Nat × DB :=
    match findOrderByNum db od.order_sn with
    | some o => (o.id, db)
    | none => freshId db
  let orderId := idDb.1
  let db := idDb.2
  if env.failOrderBasic then (.error "order basic insert failed", db)
  else
    let row := mkOrderRow od companyId shopId orderId now
    if db.orders.any (fun o => o.id == orderId) then
      (.ok orderId,
       { db with orders :=
           db.orders.map (fun o => if o.id == orderId then orderConflictUpdate o row else o) })
    else
      (.ok orderId, { db with orders := db.orders ++ [row] })

/-- The logistic row written by `_upsertLogistic` (`orderRepository.js:238-245`):
`name` is `shipping_carrier_name || shipping_carrier || null`. -/
def mkLogisticRow (sh : ShippingInfo) (logisticId orderId now : Nat) : LogisticRow :=
  { id := logisticId
    name := firstTruthy [sh.shipping_carrier_name, sh.shipping_carrier]
    tracking_no := strOpt sh.tracking_number
    estimated_shipping_fee := some (numOr sh.estimated_shipping_fee 0)
    actual_shipping_cost := some (numOr sh.actual_shipping_cost 0)
    platform := "shopee"
    toms_order_id := orderId
    created_at := now
    updated_at := now }

/-- `ON CONFLICT (toms_order_id) DO UPDATE SET ...` column list of
`_upsertLogistic` (`orderRepository.js:229-234`).  Note that `name` is set
unconditionally to the incoming value. -/
def logisticConflictUpdate (old new : LogisticRow) : LogisticRow :=
  { old with
    name := new.name
    tracking_no := new.tracking_no
    estimated_shipping_fee := new.estimated_shipping_fee
    actual_shipping_cost := new.actual_shipping_cost
    updated_at := new.updated_at }

/-- `_upsertLogistic` (`orderRepository.js:212-259`). -/
def upsertLogistic (env : FailEnv) (sh : ShippingInfo) (orderId now : Nat)
    (db : DB) : Except String Nat × DB :=
  let idDb : Nat × DB :=
    match findLogisticByOrder db orderId with
    | some l => (l.id, db)
    | none => freshId db
  let logisticId := idDb.1
  let db := idDb.2
  if env.failLogistic then (.error "logistic upsert failed", db)
  else
    let row := mkLogisticRow sh logisticId orderId now
    if db.logistics.any (fun l => l.toms_order_id == orderId) then
      (.ok logisticId,
       { db with logistics :=
           db.logistics.map (fun l =>
             if l.toms_order_id == orderId then logisticConflictUpdate l row else l) })
    else
      (.ok logisticId, { db with logistics := db.logistics ++ [row] })

/-- The dedup lookup of `_upsertLogisticHistories`
(`orderRepository.js:277-284`), with SQL NULL semantics: a NULL operand of
`=` matches nothing. -/
def histKeyMatch (logisticId : Nat) (hi : HistoryInput) (h : HistoryRow) : Bool :=
  h.toms_logistic_id == logisticId &&
  sqlEqS h.tracking_no hi.tracking_no &&
  sqlEqN h.logistic_date (hi.tracking_date.map (· * 1000)) &&
  sqlEqS (some h.logistic_status) hi.status

/-- The history row inserted by `_upsertLogisticHistories`
(`orderRepository.js:288-309`). -/
def mkHistoryRow (hi : HistoryInput) (historyId logisticId now : Nat) : HistoryRow :=
  { id := historyId
    tracking_no := strOpt hi.tracking_no
    logistic_date := toEpochMs hi.tracking_date
    location := strOpt hi.location
    logistic_status := strOr hi.status "UNKNOWN"
    created_at := now
    updated_at := now
    toms_logistic_id := logisticId }

/-- Loop body of `_upsertLogisticHistories` (`orderRepository.js:269-322`).
A failing insert is caught inside the loop (`:315-318`) and processing
continues with the next history, so this function never throws. -/
def upsertLogisticHistoriesGo (env : FailEnv) (logisticId now : Nat) :
    List HistoryInput → Nat → List Nat → DB → List Nat × DB
  | [], _, acc, db => (acc.reverse, db)
  | hi :: rest, idx, acc, db =>
    if env.histFails.contains idx then
      upsertLogisticHistoriesGo env logisticId now rest (idx + 1) acc db
    else
      match db.histories.find? (histKeyMatch logisticId hi) with
      | some h =>
        upsertLogisticHistoriesGo env logisticId now rest (idx + 1) (h.id :: acc)
          { db with histories :=
              db.histories.map (fun h0 =>
                if h0.id == h.id then { h0 with location := strOpt hi.location, updated_at := now }
                else h0) }
      | none =>
        let idDb := freshId db
        let db := idDb.2
        upsertLogisticHistoriesGo env logisticId now rest (idx + 1) (idDb.1 :: acc)
          { db with histories := db.histories ++ [mkHistoryRow hi idDb.1 logisticId now] }

/-- `_upsertLogisticHistories` (`orderRepository.js:269-322`). -/
def upsertLogisticHistories (env : FailEnv) (histories : List HistoryInput)
    (logisticId now : Nat) (db : DB) : List Nat × DB :=
  upsertLogisticHistoriesGo env logisticId now histories 0 [] db

/-- The synthetic empty logistic row (`orderRepository.js:52-59` and
`:347-354`): only id, platform, order id and timestamps are set. -/
def mkSyntheticLogistic (logisticId orderId now : Nat) : LogisticRow :=
  { id := logisticId
    name := none
    tracking_no := none
    estimated_shipping_fee := none
    actual_shipping_cost := none
    platform := "shopee"
    toms_order_id := orderId
    created_at := now
    updated_at := now }

/-- The item row inserted by `_upsertOrderItems` (`orderRepository.js:398-431`). -/
def mkItemRow (it : ItemData) (idx itemId tomsItemId orderId logisticId : Nat)
    (trackingNo : Option String) (companyId : String) (now : Nat) : ItemRow :=
  { id := itemId
    platform_item_id := if it.item_id == 0 then none else some (toString it.item_id)
    variation_sku := strOr it.item_sku "UNKNOWN"
    promo_variation_sku := none
    name := strOr it.item_name "상품명 없음"
    option := strOpt it.variation_name
    price := numOr it.model_discounted_price 0
    original_price := numOr it.model_original_price 0
    qty := numOr it.model_quantity_purchased 1
    weight := numOr it.weight 0
    index := idx
    platform := "shopee"
    tracking_no := trackingNo
    toms_order_id := orderId
    toms_logistic_id := logisticId
    toms_item_id := tomsItemId
    company_id := companyId
    created_at := now
    updated_at := now
    image_url := strOpt it.image_url }

/-- Insert loop of `_upsertOrderItems` (`orderRepository.js:386-450`): a
failing insert rethrows (`:448`), leaving the earlier inserts of this run in
the transaction. -/
def insertItemsGo (env : FailEnv) (orderId logisticId : Nat) (trackingNo : Option String)
    (companyId : String) (now : Nat) :
    List ItemData → Nat → List Nat → DB → Except String (List Nat) × DB
  | [], _, acc, db => (.ok acc.reverse, db)
  | it :: rest, idx, acc, db =>
    if env.itemFails.contains idx then (.error "order item insert failed", db)
    else
      let idDb := freshId db
      let db := idDb.2
      let tiDb := freshId db
      let db := tiDb.2
      let row := mkItemRow it idx idDb.1 tiDb.1 orderId logisticId trackingNo companyId now
      insertItemsGo env orderId logisticId trackingNo companyId now rest (idx + 1)
        (idDb.1 :: acc) { db with items := db.items ++ [row] }

/-- `_upsertOrderItems` (`orderRepository.js:333-453`): look up the logistic
row (creating a temporary one when absent), delete every existing item of
the order, then insert the new items in positional order. -/
def upsertOrderItems (env : FailEnv) (items : List ItemData) (orderId : Nat)
    (companyId : String) (now : Nat) (db : DB) : Except String (List Nat) × DB :=
  let logistic := findLogisticByOrder db orderId
  let prep : Except String DB × DB :=
    match logistic with
    | some _ => (.ok db, db)
    | none =>
      if env.failTempLogistic then (.error "temp logistic insert failed", db)
      else
        let idDb := freshId db
        let db2 := { idDb.2 with logistics :=
          idDb.2.logistics ++ [mkSyntheticLogistic idDb.1 orderId now] }
        (.ok db2, db2)
  match prep.1 with
  | .error e => (.error e, prep.2)
  | .ok db =>
    let logisticId :=
      match logistic with
      | some l => l.id
      | none => (((findLogisticByOrder db orderId).map (fun l => l.id)).getD 0)
    let trackingNo := match logistic with | some l => l.tracking_no | none => none
    if env.failItemDelete then (.error "order item delete failed", db)
    else
      let db := { db with items := db.items.filter (fun i => !(i.toms_order_id == orderId)) }
      insertItemsGo env orderId logisticId trackingNo companyId now items 0 [] db

/-- The result object of `upsertOrder` (`orderRepository.js:79,90`). -/
structure UpsertResult where
  orderId : Option Nat
  success : Bool
deriving Repr, DecidableEq

/-- The `try` body of `upsertOrder` (`orderRepository.js:18-79`), returning
the state reached at the point of a failure. -/
def upsertOrderCore (env : FailEnv) (od : OrderData) (companyId shopId : String)
    (now : Nat) (db : DB) : Except String Nat × DB :=
  match upsertOrderBasic env od companyId shopId now db with
  | (.error e, db) => (.error e, db)
  | (.ok orderId, db) =>
    let afterShip : Except String DB × DB :=
      match od.shipping with
      | some sh =>
        match upsertLogistic env sh orderId now db with
        | (.error e, db) => (.error e, db)
        | (.ok logisticId, db) =>
          if sh.histories.length > 0 then
            let db2 := (upsertLogisticHistories env sh.histories logisticId now db).2
            (.ok db2, db2)
          else (.ok db, db)
      | none =>
        match findLogisticByOrder db orderId with
        | some _ => (.ok db, db)
        | none =>
          if env.failSyntheticLogistic then (.error "synthetic logistic insert failed", db)
          else
            let idDb := freshId db
            let db2 := { idDb.2 with logistics :=
              idDb.2.logistics ++ [mkSyntheticLogistic idDb.1 orderId now] }
            (.ok db2, db2)
    match afterShip.1 with
    | .error e => (.error e, afterShip.2)
    | .ok db =>
      if od.items.length > 0 then
        match upsertOrderItems env od.items orderId companyId now db with
        | (.error e, db) => (.error e, db)
        | (.ok _, db) => (.ok orderId, db)
      else (.ok orderId, db)

/-- `upsertOrder` (`orderRepository.js:14-92`): with a transaction object the
error is rethrown so the transaction rolls back; without one the error is
swallowed and `{success:false}` is returned over the partially written
state. -/
def upsertOrder (env : FailEnv) (hasTx : Bool) (od : OrderData)
    (companyId shopId : String) (now : Nat) (db : DB) :
    Except String (UpsertResult × DB) :=
  match upsertOrderCore env od companyId shopId now db with
  | (.ok orderId, db) => .ok ({ orderId := some orderId, success := true }, db)
  | (.error e, db) => if hasTx then .error e else .ok ({ orderId := none, success := false }, db)

/-- `db.tx` (pg-promise): on an exception of the body every write of the
transaction is rolled back. -/
def runTx (f : DB → Except String (α × DB)) (db : DB) : Except String α × DB :=
  match f db with
  | .ok (a, db2) => (.ok a, db2)
  | .error _e => (.error _e, db)

/-- The shipping phase of the `upsertOrder` try body
(`orderRepository.js:24-68`), factored out of `upsertOrderCore` for the
correctness proofs; `upsertOrderCore_phases` proves the factoring exact. -/
def upsertShipPhase (env : FailEnv) (od : OrderData) (orderId now : Nat)
    (db : DB) : Except String DB × DB :=
  match od.shipping with
  | some sh =>
    match upsertLogistic env sh orderId now db with
    | (.error e, db) => (.error e, db)
    | (.ok logisticId, db) =>
      if sh.histories.length > 0 then
        let db2 := (upsertLogisticHistories env sh.histories logisticId now db).2
        (.ok db2, db2)
      else (.ok db, db)
  | none =>
    match findLogisticByOrder db orderId with
    | some _ => (.ok db, db)
    | none =>
      if env.failSyntheticLogistic then (.error "synthetic logistic insert failed", db)
      else
        let idDb := freshId db
        let db2 := { idDb.2 with logistics :=
          idDb.2.logistics ++ [mkSyntheticLogistic idDb.1 orderId now] }
        (.ok db2, db2)

/-- The item phase of the `upsertOrder` try body
(`orderRepository.js:70-77`), factored out of `upsertOrderCore` for the
correctness proofs. -/
def upsertItemsPhase (env : FailEnv) (od : OrderData) (c : String)
    (orderId now : Nat) (db : DB) : Except String Nat × DB :=
  if od.items.length > 0 then
    match upsertOrderItems env od.items orderId c now db with
    | (.error e, db) => (.error e, db)
    | (.ok _, db) => (.ok orderId, db)
  else (.ok orderId, db)

/-! ## Marketplace wire types and the API client (`shopeeApi.js`) -/

/-- The marketplace response envelope: top-level `error` and `message`
strings and an optional `response` payload. -/
structure Envelope (α : Type) where
  error : String := ""
  message : String := ""
  response : Option α := none
deriving Repr, DecidableEq

/-- An entry of `get_order_list.response.order_list`. -/
structure OrderListEntry where
  order_sn : String
deriving Repr, DecidableEq

/-- The `response` payload of `get_order_list`. -/
structure OrderListBody where
  more : Bool := false
  next_cursor : String := ""
  order_list : Option (List OrderListEntry) := none
deriving Repr, DecidableEq

/-- An entry of an order detail `package_list`. -/
structure PackageEntry where
  shipping_carrier : Option String := none
  package_number : Option String := none
deriving Repr, DecidableEq

/-- The `image_info` object of an order detail item. -/
structure ImageInfo where
  image_url : Option String := none
deriving Repr, DecidableEq

/-- An entry of an order detail `item_list`. -/
structure ApiItem where
  item_id : Nat
  model_sku : Option String := none
  item_name : Option String := none
  model_name : Option String := none
  model_discounted_price : Option Int := none
  model_original_price : Option Int := none
  model_quantity_purchased : Option Int := none
  weight : Option Int := none
  image_info : Option ImageInfo := none
deriving Repr, DecidableEq

/-- An entry of `get_order_detail.response.order_list`. -/
structure OrderDetailEntry where
  order_sn : String
  order_status : Option String := none
  fulfillment_flag : Option String := none
  region : Option String := none
  currency : Option String := none
  create_time : Option Nat := none
  pay_time : Option Nat := none
  ship_by_date : Option Nat := none
  total_amount : Option Int := none
  cancel_by : Option String := none
  cancel_reason : Option String := none
  message_to_seller : Option String := none
  item_list : Option (List ApiItem) := none
  package_list : Option (List PackageEntry) := none
  shipping_carrier : Option String := none
  checkout_shipping_carrier : Option String := none
  estimated_shipping_fee : Option Int := none
  actual_shipping_fee : Option Int := none
deriving Repr, DecidableEq

/-- The `response` payload of `get_order_detail`. -/
structure OrderDetailBody where
  order_list : Option (List OrderDetailEntry) := none
deriving Repr, DecidableEq

/-- The `response` payload of `get_tracking_number`. -/
structure TrackingBody where
  tracking_number : Option String := none
  first_mile_tracking_number : Option String := none
  last_mile_tracking_number : Option String := none
  plp_number : Option String := none
  shipping_provider_name : Option String := none
  logistic_name : Option String := none
  carrier_name : Option String := none
  shipping_provider : Option String := none
  carrier : Option String := none
  logistics_channel : Option String := none
deriving Repr, DecidableEq

/-- An entry of `get_shipment_list.response.order_list`. -/
structure ShipmentEntry where
  order_sn : String
  package_number : Option String := none
deriving Repr, DecidableEq

/-- The `response` payload of `get_shipment_list`. -/
structure ShipmentBody where
  more : Bool := false
  next_cursor : String := ""
  order_list : Option (List ShipmentEntry) := none
deriving Repr, DecidableEq

/-- The body of a token refresh response. -/
structure TokenResp where
  access_token : Option String := none
  refresh_token : Option String := none
  expire_in : Int := 0
deriving Repr, DecidableEq

/-- The HTTP-level outcome of one request, before `_callApi` error
classification. -/
inductive HttpOutcome (α : Type) where
  | timeout
  | connReset
  | httpError (status : Nat)
  | success (body : α)
deriving Repr, DecidableEq

/-- The error classification of `_callApi` (`shopeeApi.js:73-160`): timeout,
connection reset and non-2xx responses are thrown; a 2xx body is returned
unchanged — the envelope `error` field is never inspected. -/
def callApi : HttpOutcome α → Except String α
  | .timeout => .error "API 요청 타임아웃"
  | .connReset => .error "API 호출 중 네트워크 오류: socket hang up"
  | .httpError s => .error ("API 오류 응답: " ++ toString s)
  | .success body => .ok body

/-- `a || d` on possibly absent naturals (0 is falsy). -/
def natOr (a : Option Nat) (d : Nat) : Nat :=
  match a with
  | some n => if n == 0 then d else n
  | none => d

/-- Falsiness of a possibly absent number (`!x` for `null` or 0). -/
def numFalsy : Option Int → Bool
  | none => true
  | some n => n == 0

/-- The caller-supplied parameters of `getOrderList`. -/
structure OrderListParams where
  time_range_field : Option String := none
  time_from : Option Nat := none
  time_to : Option Nat := none
  page_size : Option Nat := none
  cursor : Option String := none
  order_status : Option String := none
  response_optional_fields : Option String := none
deriving Repr, DecidableEq

/-- The request actually issued by `getOrderList`. -/
structure OrderListRequest where
  time_range_field : String
  time_from : Nat
  time_to : Nat
  page_size : Nat
  cursor : String
  order_status : Option String
  response_optional_fields : String
deriving Repr, DecidableEq

/-- Parameter construction of `getOrderList` (`shopeeApi.js:196-219`):
defaults are `create_time`, a 30-minute window ending now, page size 100,
empty cursor, `order_status` dropped when null. -/
def mkOrderListRequest (nowSec : Nat) (p : OrderListParams) : OrderListRequest :=
  { time_range_field := strOr p.time_range_field "create_time"
    time_from := natOr p.time_from (nowSec - 1800)
    time_to := natOr p.time_to nowSec
    page_size := natOr p.page_size 100
    cursor := strOr p.cursor ""
    order_status := p.order_status
    response_optional_fields := strOr p.response_optional_fields "order_status" }

/-- The outgoing marketplace calls, recorded as an execution trace. -/
inductive ApiCall where
  | orderList (accessToken : String) (req : OrderListRequest)
  | orderDetail (orderSns : List String)
  | trackingNumber (orderSn : Option String) (packageNumber : Option String)
  | shipmentList (cursor : String)
  | refreshToken (refreshTokenValue : String) (shopId : String)
deriving Repr, DecidableEq

/-- `true` exactly on `shipmentList` trace entries. -/
def ApiCall.isShipmentList : ApiCall → Bool
  | .shipmentList _ => true
  | _ => false

/-- `true` exactly on `refreshToken` trace entries. -/
def ApiCall.isRefresh : ApiCall → Bool
  | .refreshToken _ _ => true
  | _ => false

/-- `true` exactly on `orderList` trace entries. -/
def ApiCall.isOrderList : ApiCall → Bool
  | .orderList _ _ => true
  | _ => false

/-- The marketplace, as a deterministic oracle from request parameters to
`_callApi` outcomes (a thrown transport error or a decoded envelope). -/
structure ApiEnv where
  orderListResp : String → Except String (Envelope OrderListBody)
  orderDetailResp : List String → Except String (Envelope OrderDetailBody)
  trackingResp : String → Except String (Envelope TrackingBody)
  trackingByPackageResp : String → Except String (Envelope TrackingBody)
  shipmentResp : String → Except String (Envelope ShipmentBody)
  refreshResp : String → Except String TokenResp

/-- `validateToken` (`shopeeApi.js:419-472`): refresh when the access token
is falsy, the expiry is falsy, or the expiry is within 300 s of now; persist
the refreshed credentials through `shopRepository.updateShopToken` and
return the updated shop object. -/
def validateToken (env : ApiEnv) (shop : ShopRow) (nowSec : Int) (db : DB)
    (tr : List ApiCall) : Except String ShopRow × DB × List ApiCall :=
  if !(strTruthy shop.access_token) || numFalsy shop.expire_at ||
      shop.expire_at.getD 0 < nowSec + 300 then
    if !(strTruthy shop.refresh_token) then
      (.error "리프레시 토큰이 없음", db, tr)
    else
      let tr := tr ++ [ApiCall.refreshToken (shop.refresh_token.getD "") shop.shop_id]
      match env.refreshResp shop.shop_id with
      | .error e => (.error e, db, tr)
      | .ok tokenResponse =>
        if !(strTruthy tokenResponse.access_token) then
          (.error "토큰 갱신 실패", db, tr)
        else
          let shop2 := { shop with
            access_token := tokenResponse.access_token
            refresh_token := tokenResponse.refresh_token
            expire_at := some (nowSec + tokenResponse.expire_in) }
          let newShops := db.shops.map (fun s =>
            if s.id == shop.id then
              { s with access_token := tokenResponse.access_token
                       refresh_token := tokenResponse.refresh_token
                       expire_at := some (nowSec + tokenResponse.expire_in) }
            else s)
          let db := { db with shops := newShops }
          (.ok shop2, db, tr)
  else (.ok shop, db, tr)

/-! ## Ingestion orchestrator (`orderService.js`) -/

/-- Item formatting of `_processOrderDetails` (`orderService.js:230-240`):
synthetic SKU `shopee-<item_id>` when `model_sku` is falsy, weight default
0, image URL carried when present. -/
def formatItem (it : ApiItem) : ItemData :=
  { item_id := it.item_id
    item_sku := some (strOr it.model_sku ("shopee-" ++ toString it.item_id))
    item_name := it.item_name
    variation_name := it.model_name
    model_discounted_price := it.model_discounted_price
    model_original_price := it.model_original_price
    model_quantity_purchased := it.model_quantity_purchased
    weight := some (numOr it.weight 0)
    image_url :=
      match it.image_info with
      | some info => if strTruthy info.image_url then info.image_url else none
      | none => none }

/-- `_extractShippingInfo` (`orderService.js:1040-1115`): carrier priority is
`package_list[0].shipping_carrier`, then the top-level `shipping_carrier`,
then `checkout_shipping_carrier`; the tracking number is never taken from
the order detail (`package_number` is a package identifier). -/
def extractShippingInfo (od : OrderDetailEntry) : ShippingInfo :=
  let fromPackage : Option String :=
    match od.package_list with
    | some (p :: _) => strOpt p.shipping_carrier
    | _ => none
  let carrier :=
    firstTruthy [fromPackage, od.shipping_carrier, od.checkout_shipping_carrier]
  { shipping_carrier := carrier
    shipping_carrier_name := carrier
    tracking_number := none
    estimated_shipping_fee := some (numOr od.estimated_shipping_fee 0)
    actual_shipping_cost := some (numOr od.actual_shipping_fee 0)
    histories := [] }

/-- The formatted order handed to the repository
(`orderService.js:243-254`), including the service-level
`fulfillment_flag` pre-mapping. -/
def mkFormattedOrder (od : OrderDetailEntry) : OrderData :=
  let ff :=
    if od.fulfillment_flag == some "fulfilled_by_cb_seller" then some "SELLER"
    else if od.fulfillment_flag == some "fulfilled_by_shopee" then some "SHOPEE"
    else od.fulfillment_flag
  { order_sn := od.order_sn
    order_status := od.order_status
    fulfillment_flag := ff
    region := od.region
    currency := od.currency
    create_time := od.create_time
    pay_time := od.pay_time
    ship_by_date := od.ship_by_date
    total_amount := od.total_amount
    cancel_by := od.cancel_by
    cancel_reason := od.cancel_reason
    message_to_seller := od.message_to_seller
    shipping := some (extractShippingInfo od)
    items := (od.item_list.getD []).map formatItem }

/-- One entry of the tracking-number update list
(`orderService.js:470-475`). -/
structure TrackOrderUpdate where
  orderSn : String
  orderId : Nat
  trackingNumber : String
  carrierName : Option String
deriving Repr, DecidableEq

/-- The transaction body of `_saveTrackingNumbers`
(`orderService.js:595-667`): update the logistic row, keeping a truthy
stored carrier name; mirror the tracking number onto every item; promote the
order to `SHIPPED` unless it is already `SHIPPED` or `COMPLETED`. -/
def saveTrackingOne (ord : TrackOrderUpdate) (now : Nat) (db : DB) : DB :=
  let db : DB :=
    match findLogisticByOrder db ord.orderId with
    | some l =>
      let finalName :=
        if strTruthy l.name then l.name else strOpt ord.carrierName
      { db with logistics :=
          db.logistics.map (fun l0 =>
            if l0.id == l.id then
              { l0 with tracking_no := some ord.trackingNumber, name := finalName,
                        updated_at := now }
            else l0) }
    | none =>
      let idDb := freshId db
      { idDb.2 with logistics := idDb.2.logistics ++
        [{ id := idDb.1
           name := strOpt ord.carrierName
           tracking_no := some ord.trackingNumber
           estimated_shipping_fee := none
           actual_shipping_cost := none
           platform := "shopee"
           toms_order_id := ord.orderId
           created_at := now
           updated_at := now }] }
  let newItems := db.items.map (fun i =>
    if i.toms_order_id == ord.orderId then
      { i with tracking_no := some ord.trackingNumber, updated_at := now }
    else i)
  let db := { db with items := newItems }
  match db.orders.find? (fun o => o.id == ord.orderId) with
  | some o =>
    if o.status != some "SHIPPED" && o.status != some "COMPLETED" then
      { db with orders :=
          db.orders.map (fun o0 =>
            if o0.id == ord.orderId then
              { o0 with status := some "SHIPPED", updated_at := now }
            else o0) }
    else db
  | none => db

/-- `_saveTrackingNumbers` (`orderService.js:561-681`): every entry with a
falsy order number, order id or tracking number is skipped; the others are
saved one transaction each.  A falsy order id is modelled by 0. -/
def saveTrackingNumbers (orders : List TrackOrderUpdate) (now : Nat) (db : DB) :
    Nat × DB :=
  orders.foldl (fun acc ord =>
    if ord.orderSn == "" then acc
    else if ord.orderId == 0 then acc
    else if ord.trackingNumber == "" then acc
    else (acc.1 + 1, saveTrackingOne ord now acc.2)) (0, db)

/-- The tracking-number priority chain
(`orderService.js:742-745` and elsewhere). -/
def extractTrackingNumber (ti : TrackingBody) : Option String :=
  firstTruthy [ti.tracking_number, ti.first_mile_tracking_number,
               ti.last_mile_tracking_number, ti.plp_number]

/-- The carrier-name priority chain (`orderService.js:748-753`). -/
def extractCarrierName (ti : TrackingBody) : Option String :=
  firstTruthy [ti.shipping_provider_name, ti.logistic_name, ti.carrier_name,
               ti.shipping_provider, ti.carrier, ti.logistics_channel]

/-- The query of `_processUnupdatedTrackingNumbers`
(`orderService.js:694-703`): `PROCESSED` or `SHIPPED` orders of the shop
whose (left-joined) logistic tracking number is NULL or empty. -/
def unupdatedOrders (db : DB) (shopId : String) : List OrderRow :=
  db.orders.filter (fun o =>
    o.platform == "shopee" && o.shop_id == shopId &&
    (o.status == some "PROCESSED" || o.status == some "SHIPPED") &&
    (match findLogisticByOrder db o.id with
     | some l => !(strTruthy l.tracking_no)
     | none => true))

/-- Accumulating worker of `chunkList` (structural recursion, so that it
reduces definitionally). -/
def chunkListGo (n : Nat) : List α → List α → List (List α)
  | [], acc => if acc.isEmpty then [] else [acc]
  | a :: rest, acc =>
    let acc2 := acc ++ [a]
    if n ≤ acc2.length then acc2 :: chunkListGo n rest []
    else chunkListGo n rest acc2

/-- Splits a list into chunks of `n` elements (`slice(i, i + n)` batching). -/
def chunkList (n : Nat) (l : List α) : List (List α) :=
  chunkListGo n l []

/-- Per-order step of `_processUnupdatedTrackingNumbers`
(`orderService.js:721-805`): query the tracking API; push the found number,
or — when the API has none and the order is `SHIPPED` — fall back to the
order number itself as the tracking number (`:777-796`). -/
def unupdatedEntryFor (env : ApiEnv) (o : OrderRow) : Option TrackOrderUpdate :=
  match env.trackingResp o.order_num with
  | .error _ => none
  | .ok resp =>
    match resp.response with
    | none => none
    | some ti =>
      match extractTrackingNumber ti with
      | some t =>
        if o.order_num == "" || o.id == 0 then none
        else some { orderSn := o.order_num, orderId := o.id,
                    trackingNumber := t, carrierName := extractCarrierName ti }
      | none =>
        if o.status == some "SHIPPED" then
          if o.order_num == "" || o.id == 0 then none
          else some { orderSn := o.order_num, orderId := o.id,
                      trackingNumber := o.order_num, carrierName := none }
        else none

/-- `_processUnupdatedTrackingNumbers` (`orderService.js:689-821`): the
target orders are queried once, processed in batches of 10, and each batch
of updates is saved through `_saveTrackingNumbers`. -/
def processUnupdatedTrackingNumbers (env : ApiEnv) (shop : ShopRow) (now : Nat)
    (db : DB) (tr : List ApiCall) : DB × List ApiCall :=
  let targets := unupdatedOrders db shop.shop_id
  (chunkList 10 targets).foldl (fun acc batch =>
    let step := batch.foldl (fun a o =>
      (a.1 ++ [unupdatedEntryFor env o],
       a.2 ++ [ApiCall.trackingNumber (some o.order_num) none]))
      (([] : List (Option TrackOrderUpdate)), acc.2)
    let entries := step.1.reduceOption
    ((saveTrackingNumbers entries now acc.1).2, step.2)) (db, tr)

/-- The `stats` structure of `collectOrders` (`orderService.js:17-22`). -/
structure Stats where
  total : Nat := 0
  success : Nat := 0
  failed : Nat := 0
  orderSns : List String := []
deriving Repr, DecidableEq

/-- The result of `collectOrders`. -/
structure CollectResult where
  success : Bool
  error : Option String := none
  stats : Stats := {}
deriving Repr, DecidableEq

/-- Per-order transaction of `_processOrderDetails`
(`orderService.js:222-304`): format the detail, upsert it inside
`db.tx`, count a success, or roll back and count a failure. -/
def processOneOrder (fe : FailEnv) (companyId shopId : String) (now : Nat)
    (od : OrderDetailEntry) (stats : Stats) (db : DB) : Stats × DB :=
  let res := runTx
    (fun db0 => upsertOrder fe true (mkFormattedOrder od) companyId shopId now db0) db
  match res.1 with
  | .ok _ =>
    ({ stats with success := stats.success + 1,
                  orderSns := stats.orderSns ++ [od.order_sn] }, res.2)
  | .error _ => ({ stats with failed := stats.failed + 1 }, res.2)

/-- One batch of `_processOrderDetails` (`orderService.js:199-315`): fetch
the details; a thrown fetch counts the whole batch failed; a missing
`order_list` skips the batch. -/
def processBatch (fe : FailEnv) (env : ApiEnv) (companyId shopId : String)
    (now : Nat) (batch : List String) (stats : Stats) (db : DB)
    (tr : List ApiCall) : Stats × DB × List ApiCall :=
  let tr := tr ++ [ApiCall.orderDetail batch]
  match env.orderDetailResp batch with
  | .error _ => ({ stats with failed := stats.failed + batch.length }, db, tr)
  | .ok resp =>
    match resp.response with
    | none => (stats, db, tr)
    | some body =>
      match body.order_list with
      | none => (stats, db, tr)
      | some details =>
        let sdb := details.foldl
          (fun acc od => processOneOrder fe companyId shopId now od acc.1 acc.2)
          (stats, db)
        (sdb.1, sdb.2, tr)

/-- `_processOrderDetails` (`orderService.js:179-320`): require a truthy
`company_id` (otherwise throw), then process the order numbers in batches
of 50. -/
def processOrderDetails (fe : FailEnv) (env : ApiEnv) (shop : ShopRow)
    (now : Nat) (orderSns : List String) (stats : Stats) (db : DB)
    (tr : List ApiCall) : Except String (Stats × DB × List ApiCall) :=
  if !(strTruthy shop.companyid) then .error "company_id 정보 없음"
  else
    let companyId := shop.companyid.getD ""
    .ok ((chunkList 50 orderSns).foldl
      (fun acc batch =>
        processBatch fe env companyId shop.shop_id now batch acc.1 acc.2.1 acc.2.2)
      (stats, db, tr))

/-- The `missingCarrierRecords` query of `fixIncompleteLogisticInfo`
(`orderService.js:1127-1137`): truthy tracking number, falsy carrier name. -/
def missingCarrierRecords (db : DB) (shopId : String) : List (LogisticRow × String) :=
  db.logistics.filterMap (fun l =>
    match db.orders.find? (fun o => o.id == l.toms_order_id) with
    | some o =>
      if strTruthy l.tracking_no && !(strTruthy l.name) &&
         o.platform == "shopee" && o.shop_id == shopId
      then some (l, o.order_num) else none
    | none => none)

/-- The `missingTrackingRecords` query of `fixIncompleteLogisticInfo`
(`orderService.js:1140-1150`): truthy carrier name, falsy tracking number. -/
def missingTrackingRecords (db : DB) (shopId : String) : List (LogisticRow × String) :=
  db.logistics.filterMap (fun l =>
    match db.orders.find? (fun o => o.id == l.toms_order_id) with
    | some o =>
      if strTruthy l.name && !(strTruthy l.tracking_no) &&
         o.platform == "shopee" && o.shop_id == shopId
      then some (l, o.order_num) else none
    | none => none)

/-- First fix-up loop of `fixIncompleteLogisticInfo`
(`orderService.js:1158-1190`): re-pull the order detail and, when a carrier
is extracted, write it into the logistic row. -/
def fixMissingCarrier (env : ApiEnv) (now : Nat) :
    List (LogisticRow × String) → DB → List ApiCall → DB × List ApiCall
  | [], db, tr => (db, tr)
  | (l, sn) :: rest, db, tr =>
    let tr := tr ++ [ApiCall.orderDetail [sn]]
    match env.orderDetailResp [sn] with
    | .error _ => fixMissingCarrier env now rest db tr
    | .ok resp =>
      match resp.response with
      | some body =>
        match body.order_list with
        | some (od :: _) =>
          let si := extractShippingInfo od
          if strTruthy si.shipping_carrier_name then
            let newLogs := db.logistics.map (fun l0 =>
              if l0.id == l.id then
                { l0 with name := si.shipping_carrier_name, updated_at := now }
              else l0)
            fixMissingCarrier env now rest { db with logistics := newLogs } tr
          else fixMissingCarrier env now rest db tr
        | _ => fixMissingCarrier env now rest db tr
      | none => fixMissingCarrier env now rest db tr

/-- Second fix-up loop of `fixIncompleteLogisticInfo`
(`orderService.js:1193-1238`): re-pull the tracking number and, when found,
write it into the logistic row and every item of the order. -/
def fixMissingTracking (env : ApiEnv) (now : Nat) :
    List (LogisticRow × String) → DB → List ApiCall → DB × List ApiCall
  | [], db, tr => (db, tr)
  | (l, sn) :: rest, db, tr =>
    let tr := tr ++ [ApiCall.trackingNumber (some sn) none]
    match env.trackingResp sn with
    | .error _ => fixMissingTracking env now rest db tr
    | .ok resp =>
      match resp.response with
      | some ti =>
        match extractTrackingNumber ti with
        | some t =>
          let newLogs := db.logistics.map (fun l0 =>
            if l0.id == l.id then
              { l0 with tracking_no := some t, updated_at := now }
            else l0)
          let newItems := db.items.map (fun i =>
            if i.toms_order_id == l.toms_order_id then
              { i with tracking_no := some t, updated_at := now }
            else i)
          fixMissingTracking env now rest
            { db with logistics := newLogs, items := newItems } tr
        | none => fixMissingTracking env now rest db tr
      | none => fixMissingTracking env now rest db tr

/-- `fixIncompleteLogisticInfo` (`orderService.js:1122-1245`): both record
sets are queried up front; up to 20 records of each shape are fixed. -/
def fixIncompleteLogisticInfo (env : ApiEnv) (shop : ShopRow) (now : Nat)
    (db : DB) (tr : List ApiCall) : DB × List ApiCall :=
  let mc := (missingCarrierRecords db shop.shop_id).take 20
  let mt := (missingTrackingRecords db shop.shop_id).take 20
  let dtr := fixMissingCarrier env now mc db tr
  fixMissingTracking env now mt dtr.1 dtr.2

/-- The retry loop of `collectOrders` (`orderService.js:79-153`): the fuel
is the number of attempts still available (`MAX_RETRY + 1` initially); a
thrown attempt retries with exponential backoff until the budget is
exhausted. -/
def collectLoop (fe : FailEnv) (env : ApiEnv) (validShop : ShopRow)
    (nowSec timeFrom timeTo nowDb : Nat) :
    Nat → Stats → DB → List ApiCall → CollectResult × DB × List ApiCall
  | 0, stats, db, tr =>
    ({ success := false, error := some "최대 재시도 횟수 초과", stats := stats }, db, tr)
  | fuel + 1, stats, db, tr =>
    let req := mkOrderListRequest nowSec
      { time_range_field := some "update_time", time_from := some timeFrom,
        time_to := some timeTo, page_size := some 100 }
    let tr := tr ++ [ApiCall.orderList (validShop.access_token.getD "") req]
    match env.orderListResp req.cursor with
    | .error e =>
      if fuel == 0 then
        ({ success := false, error := some ("최대 재시도 횟수 초과: " ++ e),
           stats := stats }, db, tr)
      else collectLoop fe env validShop nowSec timeFrom timeTo nowDb fuel stats db tr
    | .ok resp =>
      match resp.response with
      | none => ({ success := true, stats := stats }, db, tr)
      | some body =>
        match body.order_list with
        | none => ({ success := true, stats := stats }, db, tr)
        | some [] => ({ success := true, stats := stats }, db, tr)
        | some (o :: os) =>
          let orders := o :: os
          let stats := { stats with total := orders.length }
          let orderSns := orders.map (fun e => e.order_sn)
          match processOrderDetails fe env validShop nowDb orderSns stats db tr with
          | .error e =>
            if fuel == 0 then
              ({ success := false, error := some ("최대 재시도 횟수 초과: " ++ e),
                 stats := stats }, db, tr)
            else collectLoop fe env validShop nowSec timeFrom timeTo nowDb fuel stats db tr
          | .ok (stats2, db2, tr2) =>
            let fixed := fixIncompleteLogisticInfo env validShop nowDb db2 tr2
            ({ success := true, stats := stats2 }, fixed.1, fixed.2)

/-- `collectOrders` (`orderService.js:14-170`): re-read the shop joined to
its company row, require a truthy stored access token (`validateToken` is
commented out at `:25-30` and never invoked), compute the UTC window
`[today − 1h, today + 24h]`, then run the listing/processing loop.
`utcTodayMs` is the UTC midnight of the current day in epoch milliseconds. -/
def collectOrders (fe : FailEnv) (env : ApiEnv) (shop : ShopRow)
    (maxRetry nowSec utcTodayMs nowDb : Nat) (db : DB) :
    CollectResult × DB × List ApiCall :=
  let validShop := db.shops.find? (fun s =>
    s.id == shop.id && s.deleted == none && s.isactive)
  match validShop with
  | none => ({ success := false, error := some "유효한 토큰 없음" }, db, [])
  | some vs =>
    if !(strTruthy vs.access_token) then
      ({ success := false, error := some "유효한 토큰 없음" }, db, [])
    else
      let timeFrom := (utcTodayMs - 3600000) / 1000
      let timeTo := (utcTodayMs + 86400000) / 1000
      collectLoop fe env vs nowSec timeFrom timeTo nowDb (maxRetry + 1) {} db []

/-! ## Shipment pagination (`src/unnamed/part_003`) -/

/-- A success entry of `getMassTrackingInfo` (`shopeeApi.js:376-383`). -/
structure MassSuccessEntry where
  package_number : String
  tracking_number : String
deriving Repr, DecidableEq

/-- The result object built by `getMassTrackingInfo`
(`shopeeApi.js:358-361`): it has `success_list` and `fail_list` fields —
and no `tracking_list` field. -/
structure MassTrackingResults where
  success_list : List MassSuccessEntry
  fail_list : List String
deriving Repr, DecidableEq

/-- `getMassTrackingInfo` (`shopeeApi.js:354-412`): one `getTrackingInfo`
call per package number, errors collected per package, wrapped in a fresh
envelope with empty `error`. -/
def getMassTrackingInfo (env : ApiEnv) (packageNumbers : List String)
    (tr : List ApiCall) : Envelope MassTrackingResults × List ApiCall :=
  let acc := packageNumbers.foldl (fun a pkg =>
    let tr2 := a.2.2 ++ [ApiCall.trackingNumber none (some pkg)]
    match env.trackingByPackageResp pkg with
    | .error _ => (a.1, a.2.1 ++ [pkg], tr2)
    | .ok resp =>
      match resp.response with
      | some ti =>
        if strTruthy ti.tracking_number then
          (a.1 ++ [{ package_number := pkg,
                     tracking_number := ti.tracking_number.getD "" }], a.2.1, tr2)
        else (a.1, a.2.1 ++ [pkg], tr2)
      | none => (a.1, a.2.1 ++ [pkg], tr2))
    (([] : List MassSuccessEntry), ([] : List String), tr)
  ({ error := "", message := "", response := some ⟨acc.1, acc.2.1⟩ }, acc.2.2)

/-- The access `massTrackingResponse.response.response.tracking_list` of
`part_003:392-394`: the mass-tracking result shape has no nested `response`
(and no `tracking_list`), so the access yields `undefined`. -/
def massNestedTrackingList (_r : MassTrackingResults) : Option (List TrackingBody) :=
  none

/-- `_processTrackingInfoBatch` of `part_003:378-488`: call the mass
tracking API; the update branch tests a field that never exists on the
result, so the shipment map is returned unchanged; the individual fallback
runs only when `getMassTrackingInfo` throws, which it never does. -/
def processTrackingInfoBatch3 (env : ApiEnv) (packages : List String)
    (m : List (String × ShippingInfo)) (tr : List ApiCall) :
    List (String × ShippingInfo) × List ApiCall :=
  if packages.isEmpty then (m, tr)
  else
    let massTr := getMassTrackingInfo env packages tr
    match massTr.1.response with
    | some results =>
      match massNestedTrackingList results with
      | some _ => (m, massTr.2)
      | none => (m, massTr.2)
    | none => (m, massTr.2)

/-- Associative update of the shipment map (`shipmentMap[order_sn] = ...`). -/
def mapPut (m : List (String × ShippingInfo)) (k : String) (v : ShippingInfo) :
    List (String × ShippingInfo) :=
  if m.any (fun p => p.1 == k) then
    m.map (fun p => if p.1 == k then (k, v) else p)
  else m ++ [(k, v)]

/-- The base shipment-map entry of `part_003:330-337`.  Note that the
`package_number` is written into `tracking_number`. -/
def mkShipmentMapEntry (s : ShipmentEntry) : ShippingInfo :=
  { shipping_carrier := none
    shipping_carrier_name := none
    tracking_number := s.package_number
    estimated_shipping_fee := some 0
    actual_shipping_cost := some 0
    histories := [] }

/-- The `while (hasMore)` loop of `_fetchAllShipmentInfo`
(`part_003:299-360`): page through `get_shipment_list` with
`cursor = next_cursor` while `more === true`, accumulating map entries and
pending order numbers, flushing a tracking batch at 50 pending entries or on
the last page.  `fuel` bounds the number of iterations of the source loop,
which has no bound of its own. -/
def fetchAllShipmentLoop (env : ApiEnv) :
    Nat → String → List (String × ShippingInfo) → List String → List ApiCall →
    List (String × ShippingInfo) × List String × List ApiCall
  | 0, _, m, pend, tr => (m, pend, tr)
  | fuel + 1, cursor, m, pend, tr =>
    let tr := tr ++ [ApiCall.shipmentList cursor]
    match env.shipmentResp cursor with
    | .error _ => (m, pend, tr)
    | .ok resp =>
      match resp.response with
      | none => (m, pend, tr)
      | some body =>
        let step : List (String × ShippingInfo) × List String × List ApiCall :=
          match body.order_list with
          | some (e :: es) =>
            let entries := e :: es
            let m2 := entries.foldl (fun mm s => mapPut mm s.order_sn (mkShipmentMapEntry s)) m
            let pend2 := pend ++ entries.map (fun s => s.order_sn)
            if 50 ≤ pend2.length || !body.more then
              let r := processTrackingInfoBatch3 env pend2 m2 tr
              (r.1, [], r.2)
            else (m2, pend2, tr)
          | _ => (m, pend, tr)
        if body.more then
          fetchAllShipmentLoop env fuel body.next_cursor step.1 step.2.1 step.2.2
        else step

/-- `_fetchAllShipmentInfo` (`part_003:299-369`): run the pagination loop
from the empty cursor and flush any leftover pending batch. -/
def fetchAllShipmentInfo (env : ApiEnv) (fuel : Nat) :
    List (String × ShippingInfo) × List ApiCall :=
  let r := fetchAllShipmentLoop env fuel "" [] [] []
  if r.2.1.isEmpty then (r.1, r.2.2)
  else processTrackingInfoBatch3 env r.2.1 r.1 r.2.2

/-! ## Projections and specification-side definitions -/

/-- The content of an item row: every column derived from the incoming
detail, excluding the generated surrogate keys (`id`, `toms_item_id`,
`toms_logistic_id`) and the write timestamps, which differ between any two
runs because `uuidv4()` and `CURRENT_TIMESTAMP` are fresh per run. -/
structure ItemContent where
  platform_item_id : Option String
  variation_sku : String
  promo_variation_sku : Option String
  name : String
  option : Option String
  price : Int
  original_price : Int
  qty : Int
  weight : Int
  index : Nat
  tracking_no : Option String
  company_id : String
  image_url : Option String
deriving Repr, DecidableEq

/-- Projects an item row to its content. -/
def itemContent (i : ItemRow) : ItemContent :=
  { platform_item_id := i.platform_item_id
    variation_sku := i.variation_sku
    promo_variation_sku := i.promo_variation_sku
    name := i.name
    option := i.option
    price := i.price
    original_price := i.original_price
    qty := i.qty
    weight := i.weight
    index := i.index
    tracking_no := i.tracking_no
    company_id := i.company_id
    image_url := i.image_url }

/-- Modelled from the spec (§3, §4.5 step 5): the items an upsert must
persist — the incoming items projected in positional order by index. -/
def itemContentsSpec (companyId : String) (tn : Option String) :
    List ItemData → Nat → List ItemContent
  | [], _ => []
  | it :: rest, idx =>
    { platform_item_id := if it.item_id == 0 then none else some (toString it.item_id)
      variation_sku := strOr it.item_sku "UNKNOWN"
      promo_variation_sku := none
      name := strOr it.item_name "상품명 없음"
      option := strOpt it.variation_name
      price := numOr it.model_discounted_price 0
      original_price := numOr it.model_original_price 0
      qty := numOr it.model_quantity_purchased 1
      weight := numOr it.weight 0
      index := idx
      tracking_no := tn
      company_id := companyId
      image_url := strOpt it.image_url } :: itemContentsSpec companyId tn rest (idx + 1)

/-- Repeated upserts of order details, each in its own transaction, with a
failed transaction rolled back (`db.tx` semantics). -/
def foldUpserts (ods : List OrderData) (c s : String) (now : Nat) (db : DB) : DB :=
  ods.foldl (fun d od =>
    match upsertOrder benign true od c s now d with
    | .ok r => r.2
    | .error _ => d) db

/-- Modelled from the spec (§4.2 pagination): the cursor sequence a
paginating caller must issue — start at the given cursor and, while the
response sets `more`, continue at `next_cursor`. -/
def specShipmentCursorChain (env : ApiEnv) : Nat → String → List String
  | 0, _ => []
  | fuel + 1, cursor =>
    cursor ::
      (match env.shipmentResp cursor with
       | .ok resp =>
         match resp.response with
         | some body =>
           if body.more then specShipmentCursorChain env fuel body.next_cursor else []
         | none => []
       | .error _ => [])

/-- Modelled from the spec (§4.1): the byte payload of the signature — the
UTF-8 bytes of `partner_id || path || timestamp || access_token || shop_id`,
where a missing (or empty, hence falsy) optional contributes no bytes. -/
def specSignPayload (partnerId path : String) (timestamp : Nat)
    (accessToken shopId : Option String) : List Nat :=
  utf8Encode partnerId ++ utf8Encode path ++ utf8Encode (toString timestamp) ++
  (if strTruthy accessToken then utf8Encode (accessToken.getD "") else []) ++
  (if strTruthy shopId then utf8Encode (shopId.getD "") else [])

/-- Base-256 value of a byte list (used to bound digests). -/
def bytesToNat (bs : List Nat) : Nat :=
  bs.foldl (fun a b => a * 256 + b) 0

/-- The decimal digit characters of a natural number (most significant
first), mirroring the rendering used by `toString`. -/
def decDigits (n : Nat) : List Char :=
  if _h : n < 10 then [Nat.digitChar n]
  else decDigits (n / 10) ++ [Nat.digitChar (n % 10)]
termination_by n
decreasing_by exact Nat.div_lt_self (by omega) (by omega)

/-- The sixteen lowercase hexadecimal digit characters. -/
def lowerHexChars : List Char :=
  "0123456789abcdef".data

/-! ## Concrete fixtures used by the verification theorems -/

/-- Cursors of the `get_order_list` calls of a trace. -/
def orderListCursors (tr : List ApiCall) : List String :=
  tr.filterMap (fun c => match c with
    | .orderList _ req => some req.cursor
    | _ => none)

/-- Cursors of the `get_shipment_list` calls of a trace. -/
def shipmentCursors (tr : List ApiCall) : List String :=
  tr.filterMap (fun c => match c with
    | .shipmentList cu => some cu
    | _ => none)

/-- Requests of the `get_order_list` calls of a trace. -/
def orderListReqs (tr : List ApiCall) : List OrderListRequest :=
  tr.filterMap (fun c => match c with
    | .orderList _ req => some req
    | _ => none)

/-- A sample line item. -/
def itemA : ItemData :=
  { item_id := 1, item_sku := some "S1", item_name := some "First item",
    variation_name := none, model_discounted_price := some 1000,
    model_original_price := some 1000, model_quantity_purchased := some 2,
    weight := some 0, image_url := none }

/-- A second sample line item. -/
def itemB : ItemData :=
  { item_id := 2, item_sku := some "S2", item_name := some "Second item",
    variation_name := none, model_discounted_price := some 500,
    model_original_price := some 700, model_quantity_purchased := some 1,
    weight := some 0, image_url := none }

/-- Shipping data with a carrier name and tracking number. -/
def shippingDHL : ShippingInfo :=
  { shipping_carrier := some "DHL", shipping_carrier_name := some "DHL",
    tracking_number := some "TN9", estimated_shipping_fee := some 0,
    actual_shipping_cost := some 0, histories := [] }

/-- Shipping data carrying no carrier value at all. -/
def shippingNoCarrier : ShippingInfo :=
  { shipping_carrier := none, shipping_carrier_name := none,
    tracking_number := none, estimated_shipping_fee := some 0,
    actual_shipping_cost := some 0, histories := [] }

/-- A sample order detail handed to the repository. -/
def baseOrder : OrderData :=
  { order_sn := "250515ABC", order_status := some "READY_TO_SHIP",
    fulfillment_flag := none, region := none, currency := none,
    create_time := some 1747267200, pay_time := none, ship_by_date := none,
    total_amount := some 2000, cancel_by := none, cancel_reason := none,
    message_to_seller := none, shipping := none, items := [itemA] }

/-- A sample shipment-history event. -/
def historyH : HistoryInput :=
  { tracking_no := some "TN9", tracking_date := some 1747267900,
    status := some "PICKED_UP", location := some "Seoul" }

/-- The sample order with shipping and one history event. -/
def orderWithHistory : OrderData :=
  { baseOrder with shipping := some { shippingDHL with histories := [historyH] } }

/-- A database holding the sample order with a stored carrier name. -/
def dbWithCarrier : DB :=
  { orders := [mkOrderRow baseOrder "C1" "SHOP1" 1 100]
    logistics := [mkLogisticRow shippingDHL 2 1 100]
    nextId := 3 }

/-- An active, non-deleted shop row with a stored (stale) token:
`expire_at = 999940 = nowSec − 60` for `nowSec = 1000000`. -/
def validShop : ShopRow :=
  { id := 7, shop_id := "555001", access_token := some "t0",
    refresh_token := some "r0", expire_at := some 999940, deleted := none,
    isactive := true, companyid := some "C1", issandbox := false }

/-- A database holding only the sample shop. -/
def shopDB : DB := { shops := [validShop] }

/-- A marketplace in which every list is empty and a token refresh hands out
the token `t1`. -/
def emptyListEnv : ApiEnv :=
  { orderListResp := fun _ => .ok { response := some { order_list := some [] } }
    orderDetailResp := fun _ => .ok { response := none }
    trackingResp := fun _ => .ok { response := none }
    trackingByPackageResp := fun _ => .ok { response := none }
    shipmentResp := fun _ => .ok { response := none }
    refreshResp := fun _ => .ok { access_token := some "t1",
                                  refresh_token := some "r1", expire_in := 14400 } }

/-- The error envelope of scenario S7: the marketplace answers 2xx with
`{error:"auth", message:"bad sign"}` and no `response` payload. -/
def errorEnvelope : Envelope OrderListBody :=
  { error := "auth", message := "bad sign", response := none }

/-- A marketplace whose order-list endpoint answers the S7 error envelope. -/
def c1env : ApiEnv := { emptyListEnv with orderListResp := fun _ => .ok errorEnvelope }

/-- A marketplace whose first order-list page sets `more = true` with
`next_cursor = "PAGE2"`. -/
def c9env : ApiEnv :=
  { emptyListEnv with
    orderListResp := fun cursor =>
      if cursor == "" then
        .ok { response := some { more := true, next_cursor := "PAGE2",
                                 order_list := some [{ order_sn := "SN1" }] } }
      else .ok { response := some { order_list := some [] } }
    orderDetailResp := fun _ => .ok { response := some { order_list := some [] } } }

/-- A `SHIPPED` order of shop `SH9` with an empty logistic row. -/
def c10order : OrderRow :=
  { mkOrderRow baseOrder "C1" "SH9" 1 100 with
    status := some "SHIPPED", order_num := "25042599XYZ" }

/-- A database holding the `SHIPPED` order without any tracking number. -/
def c10db : DB :=
  { orders := [c10order], logistics := [mkSyntheticLogistic 2 1 100], nextId := 3 }

/-- The shop owning the `SHIPPED` order. -/
def c10shop : ShopRow :=
  { id := 9, shop_id := "SH9", access_token := some "t",
    refresh_token := none, expire_at := some 99999999, deleted := none,
    isactive := true, companyid := some "C1", issandbox := false }

/-- A marketplace whose tracking endpoint answers with a payload carrying no
tracking number in any field. -/
def noTrackingEnv : ApiEnv :=
  { emptyListEnv with trackingResp := fun _ => .ok { response := some {} } }

/-! ## C1 — error envelopes are not surfaced -/

/-- C1, counterexample.  `_callApi` passes the S7 error envelope through as
a success, and `collectOrders` on that envelope returns `{success:true}`
with empty stats and an unchanged database — it does not fail with an
`ApiError`. -/
theorem C1_counterexample :
    callApi (HttpOutcome.success errorEnvelope) = .ok errorEnvelope ∧
    (collectOrders benign c1env validShop 3 1000000 900000000 42 shopDB).1 =
      { success := true, error := none, stats := {} } ∧
    (collectOrders benign c1env validShop 3 1000000 900000000 42 shopDB).2.1 = shopDB := by
  decide

/-! ## C2 — items are rewritten only when the new detail has items -/

/-- C2, counterexample.  Upserting the order with one item and then
upserting it again with zero items leaves the original item in place: the
persisted item set is not the empty set projected from the second detail. -/
theorem C2_counterexample :
    ((upsertOrder benign true baseOrder "C1" "SHOP1" 100 ({} : DB)).bind
      (fun r => upsertOrder benign true { baseOrder with items := [] }
        "C1" "SHOP1" 200 r.2)).map
      (fun r => (itemsOfOrder r.2 (r.1.orderId.getD 999)).map
        (fun i => i.variation_sku)) = .ok ["S1"] := by
  decide

/-! ## C3 — carrier-name preservation -/

/-- C3, counterexample.  The stored carrier name is `DHL`; upserting the
order with shipping whose carrier fields are all null overwrites the stored
name with NULL through the `_upsertLogistic` conflict update. -/
theorem C3_counterexample :
    (findLogisticByOrder dbWithCarrier 1).map (fun l => l.name) = some (some "DHL") ∧
    (upsertOrder benign true
        { baseOrder with shipping := some shippingNoCarrier, items := [] }
        "C1" "SHOP1" 200 dbWithCarrier).map
      (fun r => (findLogisticByOrder r.2 1).map (fun l => l.name)) =
      .ok (some none) := by
  decide

/-! ## C5 — which failures propagate out of the transaction -/

/-- C5, counterexample.  With the insert of the (only) history event made to
throw, `upsertOrder` still succeeds and the committed state simply lacks the
history row — the failure neither propagates nor rolls the order back,
whereas the benign run commits one history row. -/
theorem C5_counterexample :
    (upsertOrder { histFails := [0] } true orderWithHistory "C1" "SHOP1" 100
        ({} : DB)).map (fun r => (r.1.success, r.2.histories.length)) =
      .ok (true, 0) ∧
    (upsertOrder benign true orderWithHistory "C1" "SHOP1" 100 ({} : DB)).map
      (fun r => r.2.histories.length) = .ok 1 := by
  decide

/-! ## C6 — the token-refresh policy is not invoked by the orchestrator -/

/-- C6.  For a shop whose token expired 60 s ago (`expire_at = nowSec − 60`),
`collectOrders` issues `getOrderList` with the stale stored token `t0` and
never calls the refresh endpoint; `validateToken`, which implements the
300-second refresh policy and is commented out in `collectOrders`, would
have refreshed and returned the new token for exactly this shop. -/
theorem C6_refresh_not_invoked :
    (collectOrders benign emptyListEnv validShop 3 1000000 900000000 42 shopDB).2.2 =
      [ApiCall.orderList "t0" (mkOrderListRequest 1000000
        { time_range_field := some "update_time",
          time_from := some ((900000000 - 3600000) / 1000),
          time_to := some ((900000000 + 86400000) / 1000),
          page_size := some 100 })] ∧
    (collectOrders benign emptyListEnv validShop 3 1000000 900000000 42 shopDB).1.success
      = true ∧
    (validateToken emptyListEnv validShop 1000000 shopDB []).2.2 =
      [ApiCall.refreshToken "r0" "555001"] ∧
    (validateToken emptyListEnv validShop 1000000 shopDB []).1 =
      .ok { validShop with access_token := some "t1", refresh_token := some "r1",
                           expire_at := some 1014400 } := by
  decide

/-! ## C9 — pagination -/

/-- C9, counterexample.  The first order-list page answers `more = true`
with `next_cursor = "PAGE2"`, yet the collection run issues exactly one
`get_order_list` call, with the empty cursor: the next page is never
requested. -/
theorem C9_counterexample :
    (c9env.orderListResp "").map (fun e => e.response.map (fun b => b.more)) =
      .ok (some true) ∧
    orderListCursors
      (collectOrders benign c9env validShop 3 1000000 900000000 42 shopDB).2.2 =
      [""] := by
  decide

/-! ## C10 — order number written as tracking-number fallback -/

/-- C10.  The `SHIPPED` order has no stored tracking number and the tracking
API returns none; `_processUnupdatedTrackingNumbers` then writes the order
number itself into `tracking_no` instead of leaving it NULL. -/
theorem C10_order_number_fallback :
    (findLogisticByOrder c10db 1).map (fun l => l.tracking_no) = some none ∧
    (findLogisticByOrder
        (processUnupdatedTrackingNumbers noTrackingEnv c10shop 500 c10db []).1 1).map
      (fun l => l.tracking_no) = some (some "25042599XYZ") := by
  decide

/-! ## List helper lemmas -/

/-- `find?` commutes with a map whose function preserves the predicate. -/
theorem find?_map_same (p : α → Bool) (f : α → α) (h : ∀ a, p (f a) = p a)
    (l : List α) : (l.map f).find? p = (l.find? p).map f := by
  rw [List.find?_map]
  have : p ∘ f = p := funext h
  rw [this]

/-- `filter` commutes with a map whose function preserves the predicate. -/
theorem filter_map_same (p : α → Bool) (f : α → α) (h : ∀ a, p (f a) = p a)
    (l : List α) : (l.map f).filter p = (l.filter p).map f := by
  induction l with
  | nil => rfl
  | cons a t ih => simp [List.filter_cons, h a, ih]; split <;> simp

/-- Filtering with `p` after keeping only the elements refuting `p` yields
nothing. -/
theorem filter_not_filter (p : α → Bool) (l : List α) :
    (l.filter (fun a => !(p a))).filter p = [] := by
  induction l with
  | nil => rfl
  | cons a t ih =>
    by_cases hp : p a <;> simp [List.filter_cons, hp, ih]

/-! ## C1 — amended statement -/

/-- C1, amended.  When `getOrderList` answers a 2xx envelope without a
`response` payload (as an error envelope such as
`{error:"auth", message:"bad sign"}` does), `collectOrders` treats it as an
empty result: it returns `{success:true}` with zero stats, performs no
database writes, and surfaces neither the `error` code nor the `message`.
The envelope `error` field is never inspected by `_callApi`. -/
theorem C1_amended (fe : FailEnv) (env : ApiEnv) (shop vs : ShopRow)
    (maxRetry nowSec utcTodayMs nowDb : Nat) (db : DB) (e : Envelope OrderListBody)
    (hfind : db.shops.find? (fun st => st.id == shop.id && st.deleted == none && st.isactive)
      = some vs)
    (htok : strTruthy vs.access_token = true)
    (henv : env.orderListResp "" = .ok e)
    (hresp : e.response = none) :
    collectOrders fe env shop maxRetry nowSec utcTodayMs nowDb db =
      ({ success := true, error := none, stats := {} }, db,
       [ApiCall.orderList (vs.access_token.getD "")
         (mkOrderListRequest nowSec
           { time_range_field := some "update_time",
             time_from := some ((utcTodayMs - 3600000) / 1000),
             time_to := some ((utcTodayMs + 86400000) / 1000),
             page_size := some 100 })]) := by
  unfold collectOrders
  rw [hfind]
  simp only [htok, Bool.not_true, Bool.false_eq_true, if_false]
  unfold collectLoop
  simp [mkOrderListRequest, strOr, natOr, henv, hresp]

/-- C1, witness for the amended statement at the S7 fixture. -/
theorem C1_amended_witness :
    shopDB.shops.find? (fun st => st.id == validShop.id && st.deleted == none && st.isactive)
      = some validShop ∧
    strTruthy validShop.access_token = true ∧
    c1env.orderListResp "" = .ok errorEnvelope ∧
    errorEnvelope.response = none ∧
    collectOrders benign c1env validShop 3 1000000 900000000 42 shopDB =
      ({ success := true, error := none, stats := {} }, shopDB,
       [ApiCall.orderList (validShop.access_token.getD "")
         (mkOrderListRequest 1000000
           { time_range_field := some "update_time",
             time_from := some ((900000000 - 3600000) / 1000),
             time_to := some ((900000000 + 86400000) / 1000),
             page_size := some 100 })]) :=
  ⟨by decide, by decide, rfl, rfl,
   C1_amended benign c1env validShop validShop 3 1000000 900000000 42 shopDB
     errorEnvelope (by decide) (by decide) rfl rfl⟩

/-! ## C3 — amended statement -/

/-- C3, amended.  The tracking-number save path (`_saveTrackingNumbers`)
preserves a pre-existing truthy carrier name; the order-upsert path
(`_upsertLogistic`), however, overwrites the stored name with the
API-supplied carrier value, including NULL when the API supplies no
carrier. -/
theorem C3_amended :
    (∀ (ord : TrackOrderUpdate) (now : Nat) (db : DB) (l : LogisticRow),
      findLogisticByOrder db ord.orderId = some l → strTruthy l.name = true →
      findLogisticByOrder (saveTrackingOne ord now db) ord.orderId =
        some { l with tracking_no := some ord.trackingNumber, updated_at := now }) ∧
    (∀ (sh : ShippingInfo) (oid now : Nat) (db : DB) (l : LogisticRow),
      findLogisticByOrder db oid = some l →
      firstTruthy [sh.shipping_carrier_name, sh.shipping_carrier] = none →
      findLogisticByOrder (upsertLogistic benign sh oid now db).2 oid =
        some { l with name := none, tracking_no := strOpt sh.tracking_number,
                      estimated_shipping_fee := some (numOr sh.estimated_shipping_fee 0),
                      actual_shipping_cost := some (numOr sh.actual_shipping_cost 0),
                      updated_at := now }) := by
  constructor
  · intro ord now db l hfind hname
    have hlog : (saveTrackingOne ord now db).logistics =
        db.logistics.map (fun l0 =>
          if l0.id == l.id then
            { l0 with tracking_no := some ord.trackingNumber, name := l.name,
                      updated_at := now }
          else l0) := by
      unfold saveTrackingOne
      rw [hfind]
      simp only [hname, if_true]
      split <;> first | rfl | (split <;> rfl)
    unfold findLogisticByOrder
    rw [hlog, find?_map_same _ _ ?hpa]
    case hpa => intro a; split <;> rfl
    unfold findLogisticByOrder at hfind
    rw [hfind]
    simp
  · intro sh oid now db l hfind hnone
    have hfind2 : db.logistics.find? (fun l0 => l0.toms_order_id == oid) = some l := hfind
    have hkey : (l.toms_order_id == oid) = true := by
      have h := List.find?_some hfind2
      simpa using h
    have hany : db.logistics.any (fun l0 => l0.toms_order_id == oid) = true :=
      List.any_eq_true.mpr ⟨l, List.mem_of_find?_eq_some hfind2, hkey⟩
    unfold upsertLogistic
    rw [hfind]
    simp only [benign, Bool.false_eq_true, if_false, hany, if_true]
    unfold findLogisticByOrder
    rw [find?_map_same _ _ ?hpb, hfind2]
    case hpb => intro a; split <;> rfl
    simp only [Option.map, hkey, if_true]
    unfold logisticConflictUpdate mkLogisticRow
    rw [hnone]

/-- C3, witness for the amended statement: the DHL name survives the save
path, and the upsert path nulls it. -/
theorem C3_amended_witness :
    (findLogisticByOrder dbWithCarrier 1 = some (mkLogisticRow shippingDHL 2 1 100) ∧
     strTruthy (mkLogisticRow shippingDHL 2 1 100).name = true ∧
     findLogisticByOrder
       (saveTrackingOne { orderSn := "250515ABC", orderId := 1,
                          trackingNumber := "TN77", carrierName := none } 300 dbWithCarrier) 1 =
       some { mkLogisticRow shippingDHL 2 1 100 with
              tracking_no := some "TN77", updated_at := 300 }) ∧
    (firstTruthy [shippingNoCarrier.shipping_carrier_name,
                  shippingNoCarrier.shipping_carrier] = none ∧
     findLogisticByOrder (upsertLogistic benign shippingNoCarrier 1 400 dbWithCarrier).2 1 =
       some { mkLogisticRow shippingDHL 2 1 100 with
              name := none, tracking_no := strOpt shippingNoCarrier.tracking_number,
              estimated_shipping_fee := some (numOr shippingNoCarrier.estimated_shipping_fee 0),
              actual_shipping_cost := some (numOr shippingNoCarrier.actual_shipping_cost 0),
              updated_at := 400 }) :=
  ⟨⟨by decide, by decide,
    C3_amended.1 { orderSn := "250515ABC", orderId := 1, trackingNumber := "TN77",
                   carrierName := none } 300 dbWithCarrier
      (mkLogisticRow shippingDHL 2 1 100) (by decide) (by decide)⟩,
   ⟨by decide,
    C3_amended.2 shippingNoCarrier 1 400 dbWithCarrier
      (mkLogisticRow shippingDHL 2 1 100) (by decide) (by decide)⟩⟩

/-! ## C5 — amended statement -/

/-- When the order-insert statement is not failed, `_upsertOrderBasic`
returns a resolved order id. -/
theorem upsertOrderBasic_ok (env : FailEnv) (od : OrderData) (c s : String)
    (now : Nat) (db : DB) (h : env.failOrderBasic = false) :
    ∃ oid db2, upsertOrderBasic env od c s now db = (.ok oid, db2) := by
  unfold upsertOrderBasic
  rw [h]
  simp only [Bool.false_eq_true, if_false]
  split <;> exact ⟨_, _, rfl⟩

/-- When the logistic statement is not failed, `_upsertLogistic` returns a
logistic id. -/
theorem upsertLogistic_ok (env : FailEnv) (sh : ShippingInfo) (oid now : Nat)
    (db : DB) (h : env.failLogistic = false) :
    ∃ lid db2, upsertLogistic env sh oid now db = (.ok lid, db2) := by
  unfold upsertLogistic
  rw [h]
  simp only [Bool.false_eq_true, if_false]
  split <;> exact ⟨_, _, rfl⟩

/-- With the first item insert failed, `_upsertOrderItems` throws. -/
theorem upsertOrderItems_first_fail (it : ItemData) (rest : List ItemData)
    (oid : Nat) (c : String) (now : Nat) (db : DB) :
    ∃ db2, upsertOrderItems { itemFails := [0] } (it :: rest) oid c now db =
      (.error "order item insert failed", db2) := by
  unfold upsertOrderItems
  cases h : findLogisticByOrder db oid with
  | some l =>
    dsimp only
    unfold insertItemsGo
    simp
  | none =>
    dsimp only
    unfold insertItemsGo
    simp

/-- C5, amended.  Failures while inserting a logistic-history row are caught
inside `_upsertLogisticHistories` and do not propagate (the transaction
commits without that history row), whereas a failure while inserting an item
propagates out of `upsertOrder` and, under the transaction, rolls the whole
order back to the pre-transaction state. -/
theorem C5_amended :
    (∀ (hi : HistoryInput) (lid now : Nat) (db : DB),
      upsertLogisticHistories { histFails := [0] } [hi] lid now db = ([], db)) ∧
    (∀ (od : OrderData) (c s : String) (now : Nat) (db : DB) (it : ItemData)
        (rest : List ItemData) (sh : ShippingInfo),
      od.items = it :: rest → od.shipping = some sh → sh.histories = [] →
      ∃ e, upsertOrder { itemFails := [0] } true od c s now db = .error e ∧
        runTx (fun db0 => upsertOrder { itemFails := [0] } true od c s now db0) db =
          (.error e, db)) := by
  constructor
  · intro hi lid now db
    unfold upsertLogisticHistories upsertLogisticHistoriesGo
    simp
    rfl
  · intro od c s now db it rest sh hitems hship hhist
    obtain ⟨oid, db2, hb⟩ :=
      upsertOrderBasic_ok { itemFails := [0] } od c s now db rfl
    obtain ⟨lid, db3, hl⟩ :=
      upsertLogistic_ok { itemFails := [0] } sh oid now db2 rfl
    obtain ⟨db4, hi⟩ :=
      upsertOrderItems_first_fail it rest oid c now db3
    have hcore : upsertOrderCore { itemFails := [0] } od c s now db =
        (.error "order item insert failed", db4) := by
      unfold upsertOrderCore
      rw [hb]
      dsimp only
      rw [hship]
      dsimp only
      rw [hl]
      dsimp only
      rw [hhist]
      simp only [List.length_nil, gt_iff_lt, Nat.lt_irrefl, if_false]
      rw [hitems]
      simp only [List.length_cons, Nat.zero_lt_succ, if_true]
      rw [hi]
    refine ⟨"order item insert failed", ?_, ?_⟩
    · unfold upsertOrder
      rw [hcore]
      rfl
    · unfold runTx upsertOrder
      dsimp only
      rw [hcore]
      rfl

/-- C5, witness for the amended statement at the fixture inputs. -/
theorem C5_amended_witness :
    (upsertLogisticHistories { histFails := [0] } [historyH] 5 100 dbWithCarrier =
      ([], dbWithCarrier)) ∧
    (orderWithHistory.items = [itemA] ∧
     orderWithHistory.shipping = some { shippingDHL with histories := [historyH] } ∧
     ∃ e, upsertOrder { itemFails := [0] } true
            { orderWithHistory with
              shipping := some shippingDHL } "C1" "SHOP1" 100 dbWithCarrier = .error e ∧
          runTx (fun db0 => upsertOrder { itemFails := [0] } true
            { orderWithHistory with shipping := some shippingDHL }
            "C1" "SHOP1" 100 db0) dbWithCarrier = (.error e, dbWithCarrier)) :=
  ⟨C5_amended.1 historyH 5 100 dbWithCarrier,
   by decide, by decide,
   C5_amended.2 { orderWithHistory with shipping := some shippingDHL }
     "C1" "SHOP1" 100 dbWithCarrier itemA [] shippingDHL rfl rfl rfl⟩

/-! ## Step lemmas for the benign upsert run -/

/-- `_upsertOrderBasic` on a business-key hit updates the resolved row in
place. -/
theorem upsertOrderBasic_hit (od : OrderData) (c s : String) (now : Nat)
    (db : DB) (r : OrderRow) (h : findOrderByNum db od.order_sn = some r) :
    upsertOrderBasic benign od c s now db =
      (.ok r.id, { db with orders := db.orders.map (fun o =>
        if o.id == r.id then orderConflictUpdate o (mkOrderRow od c s r.id now)
        else o) }) := by
  have hany : db.orders.any (fun o => o.id == r.id) = true :=
    List.any_eq_true.mpr ⟨r, List.mem_of_find?_eq_some h, by simp⟩
  unfold upsertOrderBasic
  rw [h]
  dsimp only
  simp only [benign, Bool.false_eq_true, if_false, hany, if_true]

/-- `_upsertOrderBasic` on a business-key miss appends a fresh row. -/
theorem upsertOrderBasic_miss (od : OrderData) (c s : String) (now : Nat)
    (db : DB) (h : findOrderByNum db od.order_sn = none)
    (hfresh : ∀ o ∈ db.orders, o.id < db.nextId) :
    upsertOrderBasic benign od c s now db =
      (.ok db.nextId, { db with orders := db.orders ++ [mkOrderRow od c s db.nextId now], nextId := db.nextId + 1 }) := by
  have hany : db.orders.any (fun o => o.id == db.nextId) = false := by
    rw [List.any_eq_false]
    intro o ho
    have := hfresh o ho
    simp only [beq_iff_eq]
    omega
  unfold upsertOrderBasic
  rw [h]
  dsimp only [freshId]
  simp only [benign, Bool.false_eq_true, if_false, hany]

/-- `_upsertLogistic` on a `toms_order_id` hit updates the row in place. -/
theorem upsertLogistic_hit (sh : ShippingInfo) (oid now : Nat) (db : DB)
    (l : LogisticRow) (h : findLogisticByOrder db oid = some l) :
    upsertLogistic benign sh oid now db =
      (.ok l.id, { db with logistics := db.logistics.map (fun l0 =>
        if l0.toms_order_id == oid then
          logisticConflictUpdate l0 (mkLogisticRow sh l.id oid now)
        else l0) }) := by
  have hfind2 : db.logistics.find? (fun l0 => l0.toms_order_id == oid) = some l := h
  have hkey : (l.toms_order_id == oid) = true := by
    have h2 := List.find?_some hfind2
    simpa using h2
  have hany : db.logistics.any (fun l0 => l0.toms_order_id == oid) = true :=
    List.any_eq_true.mpr ⟨l, List.mem_of_find?_eq_some hfind2, hkey⟩
  unfold upsertLogistic
  rw [h]
  dsimp only
  simp only [benign, Bool.false_eq_true, if_false, hany, if_true]

/-- `_upsertLogistic` on a miss appends a fresh row. -/
theorem upsertLogistic_miss (sh : ShippingInfo) (oid now : Nat) (db : DB)
    (h : findLogisticByOrder db oid = none) :
    upsertLogistic benign sh oid now db =
      (.ok db.nextId, { db with logistics := db.logistics ++ [mkLogisticRow sh db.nextId oid now], nextId := db.nextId + 1 }) := by
  have hany : db.logistics.any (fun l0 => l0.toms_order_id == oid) = false := by
    rw [List.any_eq_false]
    intro l0 hl0
    have := List.find?_eq_none.mp h l0 hl0
    simpa using this
  unfold upsertLogistic
  rw [h]
  dsimp only [freshId]
  simp only [benign, Bool.false_eq_true, if_false, hany]

/-- The history loop touches only the history table and the id counter. -/
theorem upsertLogisticHistoriesGo_tables (env : FailEnv) (lid now : Nat) :
    ∀ (hists : List HistoryInput) (idx : Nat) (acc : List Nat) (db : DB),
      (upsertLogisticHistoriesGo env lid now hists idx acc db).2.orders = db.orders ∧
      (upsertLogisticHistoriesGo env lid now hists idx acc db).2.logistics = db.logistics ∧
      (upsertLogisticHistoriesGo env lid now hists idx acc db).2.items = db.items ∧
      (upsertLogisticHistoriesGo env lid now hists idx acc db).2.shops = db.shops ∧
      db.nextId ≤ (upsertLogisticHistoriesGo env lid now hists idx acc db).2.nextId := by
  intro hists
  induction hists with
  | nil => intro idx acc db; unfold upsertLogisticHistoriesGo; exact ⟨rfl, rfl, rfl, rfl, Nat.le_refl _⟩
  | cons hi rest ih =>
    intro idx acc db
    unfold upsertLogisticHistoriesGo
    by_cases hc : env.histFails.contains idx
    · simp only [hc, if_true]
      exact ih (idx + 1) acc db
    · simp only [hc, Bool.false_eq_true, if_false]
      cases hfind : db.histories.find? (histKeyMatch lid hi) with
      | some hrow =>
        dsimp only
        exact ih (idx + 1) (hrow.id :: acc) _
      | none =>
        dsimp only [freshId]
        obtain ⟨h1, h2, h3, h4, h5⟩ := ih (idx + 1) (db.nextId :: acc)
          { db with histories := db.histories ++ [mkHistoryRow hi db.nextId lid now], nextId := db.nextId + 1 }
        exact ⟨h1, h2, h3, h4, Nat.le_trans (Nat.le_succ _) h5⟩

/-- The item insert loop: always succeeds under `benign`, touches only the
item table and the id counter, and appends exactly the projected contents of
the incoming items for the target order. -/
theorem insertItemsGo_spec (oid lid : Nat) (tn : Option String) (c : String)
    (now : Nat) :
    ∀ (items : List ItemData) (idx : Nat) (acc : List Nat) (db : DB),
      (∃ ids, (insertItemsGo benign oid lid tn c now items idx acc db).1 = .ok ids) ∧
      (insertItemsGo benign oid lid tn c now items idx acc db).2.orders = db.orders ∧
      (insertItemsGo benign oid lid tn c now items idx acc db).2.logistics = db.logistics ∧
      (insertItemsGo benign oid lid tn c now items idx acc db).2.histories = db.histories ∧
      (insertItemsGo benign oid lid tn c now items idx acc db).2.shops = db.shops ∧
      db.nextId ≤ (insertItemsGo benign oid lid tn c now items idx acc db).2.nextId ∧
      ((insertItemsGo benign oid lid tn c now items idx acc db).2.items.filter
          (fun i => i.toms_order_id == oid)).map itemContent =
        (db.items.filter (fun i => i.toms_order_id == oid)).map itemContent ++
          itemContentsSpec c tn items idx := by
  intro items
  induction items with
  | nil =>
    intro idx acc db
    unfold insertItemsGo
    exact ⟨⟨acc.reverse, rfl⟩, rfl, rfl, rfl, rfl, Nat.le_refl _, by
      unfold itemContentsSpec; simp⟩
  | cons it rest ih =>
    intro idx acc db
    unfold insertItemsGo
    have hc : benign.itemFails.contains idx = false := rfl
    simp only [hc, Bool.false_eq_true, if_false]
    dsimp only [freshId]
    obtain ⟨hok, ho, hl, hh, hs, hn, hitems⟩ := ih (idx + 1) (db.nextId :: acc)
      { db with items := db.items ++ [mkItemRow it idx db.nextId (db.nextId + 1) oid lid tn c now], nextId := db.nextId + 1 + 1 }
    refine ⟨hok, ho, hl, hh, hs,
      Nat.le_trans (Nat.le_trans (Nat.le_succ _) (Nat.le_succ _)) hn, ?_⟩
    rw [hitems]
    have hrowkey : ((mkItemRow it idx db.nextId (db.nextId + 1) oid lid tn c now).toms_order_id
        == oid) = true := by simp [mkItemRow]
    have hspec : itemContentsSpec c tn (it :: rest) idx =
        itemContent (mkItemRow it idx db.nextId (db.nextId + 1) oid lid tn c now) ::
          itemContentsSpec c tn rest (idx + 1) := by
      simp [itemContentsSpec, itemContent, mkItemRow]
    rw [hspec]
    simp [List.filter_append, List.filter_cons, hrowkey, List.append_assoc,
          List.singleton_append]

/-- `_upsertOrderItems` when the logistic row is present: succeeds, touches
only the item table and the id counter, and leaves exactly the projected
incoming items for the order, carrying the logistic tracking number. -/
theorem upsertOrderItems_found_eq (items : List ItemData) (oid : Nat) (c : String)
    (now : Nat) (db : DB) (l : LogisticRow)
    (h : findLogisticByOrder db oid = some l) :
    upsertOrderItems benign items oid c now db =
      insertItemsGo benign oid l.id l.tracking_no c now items 0 []
        { db with items := db.items.filter (fun i => !(i.toms_order_id == oid)) } := by
  unfold upsertOrderItems
  rw [h]
  dsimp only
  simp only [benign, Bool.false_eq_true, if_false]

/-- `_upsertOrderItems` when the logistic row is present: succeeds, touches
only the item table and the id counter, and leaves exactly the projected
incoming items for the order, carrying the logistic tracking number. -/
theorem upsertOrderItems_found (items : List ItemData) (oid : Nat) (c : String)
    (now : Nat) (db : DB) (l : LogisticRow)
    (h : findLogisticByOrder db oid = some l) :
    (∃ ids, (upsertOrderItems benign items oid c now db).1 = .ok ids) ∧
    (upsertOrderItems benign items oid c now db).2.orders = db.orders ∧
    (upsertOrderItems benign items oid c now db).2.logistics = db.logistics ∧
    (upsertOrderItems benign items oid c now db).2.histories = db.histories ∧
    (upsertOrderItems benign items oid c now db).2.shops = db.shops ∧
    db.nextId ≤ (upsertOrderItems benign items oid c now db).2.nextId ∧
    (itemsOfOrder (upsertOrderItems benign items oid c now db).2 oid).map itemContent =
      itemContentsSpec c l.tracking_no items 0 := by
  rw [upsertOrderItems_found_eq items oid c now db l h]
  obtain ⟨hok, ho, hl, hh, hs, hn, hitems⟩ := insertItemsGo_spec oid l.id l.tracking_no c now
    items 0 [] { db with items := db.items.filter (fun i => !(i.toms_order_id == oid)) }
  refine ⟨hok, ho, hl, hh, hs, hn, ?_⟩
  unfold itemsOfOrder
  rw [hitems]
  simp only [filter_not_filter, List.map_nil, List.nil_append]

/-! ## Well-formedness transport -/

/-- Well-formedness only constrains the order and logistic tables and the
id counter, so it transports along any change of the other tables that only
grows the counter. -/
theorem WF_of_parts (db db2 : DB) (hwf : WF db) (ho : db2.orders = db.orders)
    (hl : db2.logistics = db.logistics) (hn : db.nextId ≤ db2.nextId) : WF db2 := by
  obtain ⟨w1, w2, w3, w4, w5⟩ := hwf
  exact ⟨ho ▸ w1, ho ▸ w2, hl ▸ w3,
    by rw [ho]; intro o hm; exact Nat.lt_of_lt_of_le (w4 o hm) hn,
    by rw [hl]; intro x hm; exact Nat.lt_of_lt_of_le (w5 x hm) hn⟩

/-- Well-formedness survives an in-place update of order rows that keeps
id, order number and platform. -/
theorem WF_orders_map (db : DB) (hwf : WF db) (f : OrderRow → OrderRow)
    (hp : ∀ o, (f o).id = o.id ∧ (f o).order_num = o.order_num ∧
      (f o).platform = o.platform) :
    WF { db with orders := db.orders.map f } := by
  obtain ⟨w1, w2, w3, w4, w5⟩ := hwf
  refine ⟨?_, ?_, w3, ?_, w5⟩
  · rw [List.pairwise_map]
    exact w1.imp (fun {a b} hab => by
      rw [(hp a).2.1, (hp a).2.2, (hp b).2.1, (hp b).2.2]; exact hab)
  · rw [List.pairwise_map]
    exact w2.imp (fun {a b} hab => by rw [(hp a).1, (hp b).1]; exact hab)
  · intro o hm
    obtain ⟨o0, hm0, rfl⟩ := List.mem_map.mp hm
    rw [(hp o0).1]
    exact w4 o0 hm0

/-- Well-formedness survives appending a fresh order row for a key that is
not yet present. -/
theorem WF_orders_append (db : DB) (hwf : WF db) (sn : String)
    (hnone : findOrderByNum db sn = none) (row : OrderRow)
    (hrid : row.id = db.nextId) (hrnum : row.order_num = sn)
    (hrplat : row.platform = "shopee") :
    WF { db with orders := db.orders ++ [row], nextId := db.nextId + 1 } := by
  obtain ⟨w1, w2, w3, w4, w5⟩ := hwf
  have hkeys : ∀ o ∈ db.orders, ¬(orderKeyMatch sn o = true) :=
    fun o hm => by simpa using List.find?_eq_none.mp hnone o hm
  refine ⟨?_, ?_, w3, ?_, ?_⟩
  · rw [List.pairwise_append]
    refine ⟨w1, List.pairwise_singleton _ _, ?_⟩
    intro a ha b hb
    rw [List.mem_singleton] at hb
    subst hb
    have := hkeys a ha
    unfold orderKeyMatch at this
    simp only [Bool.and_eq_true, beq_iff_eq, not_and] at this
    rw [hrnum, hrplat]
    by_cases hnum : a.order_num = sn
    · exact Or.inr (fun hp => this hnum hp)
    · exact Or.inl hnum
  · rw [List.pairwise_append]
    refine ⟨w2, List.pairwise_singleton _ _, ?_⟩
    intro a ha b hb
    rw [List.mem_singleton] at hb
    subst hb
    rw [hrid]
    exact Nat.ne_of_lt (w4 a ha)
  · intro o hm
    rw [List.mem_append, List.mem_singleton] at hm
    rcases hm with hm | rfl
    · exact Nat.lt_succ_of_lt (w4 o hm)
    · rw [hrid]; exact Nat.lt_succ_self _
  · intro x hm
    exact Nat.lt_succ_of_lt (w5 x hm)

/-- Well-formedness survives an in-place update of logistic rows that keeps
id and order reference. -/
theorem WF_logistics_map (db : DB) (hwf : WF db) (g : LogisticRow → LogisticRow)
    (hp : ∀ l, (g l).toms_order_id = l.toms_order_id ∧ (g l).id = l.id) :
    WF { db with logistics := db.logistics.map g } := by
  obtain ⟨w1, w2, w3, w4, w5⟩ := hwf
  refine ⟨w1, w2, ?_, w4, ?_⟩
  · rw [List.pairwise_map]
    exact w3.imp (fun {a b} hab => by rw [(hp a).1, (hp b).1]; exact hab)
  · intro x hm
    obtain ⟨x0, hm0, rfl⟩ := List.mem_map.mp hm
    rw [(hp x0).2]
    exact w5 x0 hm0

/-- Well-formedness survives appending a fresh logistic row for an order
that has none yet. -/
theorem WF_logistics_append (db : DB) (hwf : WF db) (oid : Nat)
    (hnone : findLogisticByOrder db oid = none) (l : LogisticRow)
    (hlid : l.id = db.nextId) (hltoms : l.toms_order_id = oid) :
    WF { db with logistics := db.logistics ++ [l], nextId := db.nextId + 1 } := by
  obtain ⟨w1, w2, w3, w4, w5⟩ := hwf
  have hkeys : ∀ x ∈ db.logistics, ¬((x.toms_order_id == oid) = true) :=
    fun x hm => by simpa using List.find?_eq_none.mp hnone x hm
  refine ⟨w1, w2, ?_, ?_, ?_⟩
  · rw [List.pairwise_append]
    refine ⟨w3, List.pairwise_singleton _ _, ?_⟩
    intro a ha b hb
    rw [List.mem_singleton] at hb
    subst hb
    rw [hltoms]
    intro heq
    exact hkeys a ha (by simp [heq])
  · intro o hm
    exact Nat.lt_succ_of_lt (w4 o hm)
  · intro x hm
    rw [List.mem_append, List.mem_singleton] at hm
    rcases hm with hm | rfl
    · exact Nat.lt_succ_of_lt (w5 x hm)
    · rw [hlid]; exact Nat.lt_succ_self _

/-- A duplicate-free key with a hit has exactly one matching row. -/
theorem filter_length_one_of_find (p : α → Bool) :
    ∀ (l : List α) (x : α), l.find? p = some x →
      l.Pairwise (fun a b => ¬(p a = true ∧ p b = true)) →
      (l.filter p).length = 1 := by
  intro l
  induction l with
  | nil => intro x hx; simp at hx
  | cons a t ih =>
    intro x hx hpw
    rw [List.pairwise_cons] at hpw
    by_cases hpa : p a = true
    · rw [List.filter_cons_of_pos hpa]
      have ht : t.filter p = [] := by
        rw [List.filter_eq_nil_iff]
        intro b hb hpb
        exact hpw.1 b hb ⟨hpa, hpb⟩
      rw [ht]
      rfl
    · rw [List.filter_cons_of_neg hpa]
      rw [List.find?_cons_of_neg _ (by simpa using hpa)] at hx
      exact ih x hx hpw.2

/-! ## The benign upsert run -/

/-- `upsertOrderCore` is the exact composition of its three phases. -/
theorem upsertOrderCore_phases (env : FailEnv) (od : OrderData) (c s : String)
    (now : Nat) (db : DB) :
    upsertOrderCore env od c s now db =
      match upsertOrderBasic env od c s now db with
      | (.error e, db1) => (.error e, db1)
      | (.ok oid, db1) =>
        match (upsertShipPhase env od oid now db1).1 with
        | .error e => (.error e, (upsertShipPhase env od oid now db1).2)
        | .ok db2 => upsertItemsPhase env od c oid now db2 := by
  unfold upsertOrderCore upsertShipPhase upsertItemsPhase
  rfl

/-- A second conflict update with the same incoming detail changes only the
update timestamp (updated row case). -/
theorem conflictFixed_after_update (r : OrderRow) (od : OrderData) (c s : String)
    (oid now n : Nat) :
    orderConflictUpdate (orderConflictUpdate r (mkOrderRow od c s oid now))
        (mkOrderRow od c s oid n) =
      { orderConflictUpdate r (mkOrderRow od c s oid now) with updated_at := n } := by
  simp [orderConflictUpdate, mkOrderRow]

/-- A second conflict update with the same incoming detail changes only the
update timestamp (inserted row case). -/
theorem conflictFixed_after_insert (od : OrderData) (c s : String) (oid now n : Nat) :
    orderConflictUpdate (mkOrderRow od c s oid now) (mkOrderRow od c s oid n) =
      { mkOrderRow od c s oid now with updated_at := n } := by
  simp [orderConflictUpdate, mkOrderRow]

/-- A duplicate-free order key with a hit has exactly one row. -/
theorem orders_count_one (db : DB) (hwf : WF db) (sn : String) (row : OrderRow)
    (hfind : findOrderByNum db sn = some row) :
    (db.orders.filter (orderKeyMatch sn)).length = 1 := by
  refine filter_length_one_of_find _ _ row hfind (hwf.1.imp ?_)
  intro a b hab ⟨ha, hb⟩
  unfold orderKeyMatch at ha hb
  simp only [Bool.and_eq_true, beq_iff_eq] at ha hb
  rcases hab with h | h
  · exact h (ha.1.trans hb.1.symm)
  · exact h (ha.2.trans hb.2.symm)

/-- A duplicate-free logistic key with a hit has exactly one row. -/
theorem logistics_count_one (db : DB) (hwf : WF db) (oid : Nat) (l : LogisticRow)
    (hfind : findLogisticByOrder db oid = some l) :
    (db.logistics.filter (fun x => x.toms_order_id == oid)).length = 1 := by
  refine filter_length_one_of_find _ _ l hfind (hwf.2.2.1.imp ?_)
  intro a b hab ⟨ha, hb⟩
  simp only [beq_iff_eq] at ha hb
  exact hab (ha.trans hb.symm)

/-- Post-state of the benign `_upsertOrderBasic` phase. -/
theorem upsertOrderBasic_post (od : OrderData) (c s : String) (now : Nat)
    (db : DB) (hwf : WF db) :
    ∃ oid db1, upsertOrderBasic benign od c s now db = (.ok oid, db1) ∧
      WF db1 ∧
      db1.logistics = db.logistics ∧ db1.histories = db.histories ∧
      db1.items = db.items ∧ db1.shops = db.shops ∧ db.nextId ≤ db1.nextId ∧
      ∃ row, findOrderByNum db1 od.order_sn = some row ∧ row.id = oid ∧
        (∀ n, orderConflictUpdate row (mkOrderRow od c s oid n) =
          { row with updated_at := n }) ∧
        (∀ r0, findOrderByNum db od.order_sn = some r0 →
          oid = r0.id ∧ row = orderConflictUpdate r0 (mkOrderRow od c s r0.id now)) := by
  cases hfo : findOrderByNum db od.order_sn with
  | some r =>
    have hp : ∀ o : OrderRow,
        ((fun o => if o.id == r.id then
            orderConflictUpdate o (mkOrderRow od c s r.id now) else o) o).id = o.id ∧
        ((fun o => if o.id == r.id then
            orderConflictUpdate o (mkOrderRow od c s r.id now) else o) o).order_num = o.order_num ∧
        ((fun o => if o.id == r.id then
            orderConflictUpdate o (mkOrderRow od c s r.id now) else o) o).platform = o.platform := by
      intro o; dsimp only; split <;> exact ⟨rfl, rfl, rfl⟩
    refine ⟨r.id, _, upsertOrderBasic_hit od c s now db r hfo,
      WF_orders_map db hwf _ hp, rfl, rfl, rfl, rfl, Nat.le_refl _,
      orderConflictUpdate r (mkOrderRow od c s r.id now), ?_, rfl, ?_, ?_⟩
    · have hpa : ∀ o : OrderRow,
          orderKeyMatch od.order_sn ((fun o => if o.id == r.id then
            orderConflictUpdate o (mkOrderRow od c s r.id now) else o) o) =
          orderKeyMatch od.order_sn o := by
        intro o
        dsimp only
        split <;> rfl
      show ((db.orders.map _).find? (orderKeyMatch od.order_sn)) = _
      rw [find?_map_same _ _ hpa]
      unfold findOrderByNum at hfo
      rw [hfo]
      simp
    · intro n
      exact conflictFixed_after_update r od c s r.id now n
    · intro r0 hr0
      injection hr0 with h0
      subst h0
      exact ⟨rfl, rfl⟩
  | none =>
    have hfresh := hwf.2.2.2.1
    refine ⟨db.nextId, _, upsertOrderBasic_miss od c s now db hfo hfresh,
      WF_orders_append db hwf od.order_sn hfo _ rfl rfl rfl, rfl, rfl, rfl, rfl,
      Nat.le_succ _, mkOrderRow od c s db.nextId now, ?_, rfl, ?_, ?_⟩
    · show ((db.orders ++ [mkOrderRow od c s db.nextId now]).find?
        (orderKeyMatch od.order_sn)) = _
      rw [List.find?_append]
      unfold findOrderByNum at hfo
      rw [hfo]
      simp [orderKeyMatch, mkOrderRow]
    · intro n
      exact conflictFixed_after_insert od c s db.nextId now n
    · intro r0 hr0
      exact Option.noConfusion hr0

/-- `_upsertLogisticHistories` touches only the history table and the id
counter. -/
theorem upsertLogisticHistories_tables (env : FailEnv) (hists : List HistoryInput)
    (lid now : Nat) (db : DB) :
    (upsertLogisticHistories env hists lid now db).2.orders = db.orders ∧
    (upsertLogisticHistories env hists lid now db).2.logistics = db.logistics ∧
    (upsertLogisticHistories env hists lid now db).2.items = db.items ∧
    (upsertLogisticHistories env hists lid now db).2.shops = db.shops ∧
    db.nextId ≤ (upsertLogisticHistories env hists lid now db).2.nextId :=
  upsertLogisticHistoriesGo_tables env lid now hists 0 [] db

/-- The history pass preserves well-formedness and the logistic lookup. -/
theorem histPhase_post (hists : List HistoryInput) (lid now : Nat) (dbM : DB)
    (hwfM : WF dbM) (oid : Nat) (lrow : LogisticRow)
    (hfound : findLogisticByOrder dbM oid = some lrow) :
    WF (upsertLogisticHistories benign hists lid now dbM).2 ∧
    (upsertLogisticHistories benign hists lid now dbM).2.orders = dbM.orders ∧
    (upsertLogisticHistories benign hists lid now dbM).2.items = dbM.items ∧
    (upsertLogisticHistories benign hists lid now dbM).2.shops = dbM.shops ∧
    dbM.nextId ≤ (upsertLogisticHistories benign hists lid now dbM).2.nextId ∧
    findLogisticByOrder (upsertLogisticHistories benign hists lid now dbM).2 oid =
      some lrow := by
  obtain ⟨t1, t2, t3, t4, t5⟩ := upsertLogisticHistories_tables benign hists lid now dbM
  refine ⟨WF_of_parts dbM _ hwfM t1 t2 t5, t1, t3, t4, t5, ?_⟩
  unfold findLogisticByOrder
  rw [t2]
  exact hfound

/-- Post-state of the benign shipping phase: it succeeds, preserves the
other tables, and afterwards the order has a logistic row, whose tracking
number is the incoming one when shipping data was supplied, and which is the
untouched pre-existing row when it was not. -/
theorem upsertShipPhase_post (od : OrderData) (oid now : Nat) (db1 : DB)
    (hwf : WF db1) :
    ∃ db2, upsertShipPhase benign od oid now db1 = (.ok db2, db2) ∧
      WF db2 ∧
      db2.orders = db1.orders ∧ db2.items = db1.items ∧ db2.shops = db1.shops ∧
      db1.nextId ≤ db2.nextId ∧
      ∃ l, findLogisticByOrder db2 oid = some l ∧
        (∀ sh, od.shipping = some sh → l.tracking_no = strOpt sh.tracking_number) ∧
        (od.shipping = none → ∀ l0, findLogisticByOrder db1 oid = some l0 → l = l0) := by
  unfold upsertShipPhase
  cases hship : od.shipping with
  | some sh =>
    dsimp only
    cases hfl : findLogisticByOrder db1 oid with
    | some l0 =>
      rw [upsertLogistic_hit sh oid now db1 l0 hfl]
      dsimp only
      have hkey : (l0.toms_order_id == oid) = true := by
        have hfind2 : db1.logistics.find? (fun l1 => l1.toms_order_id == oid) = some l0 := hfl
        have h2 := List.find?_some hfind2
        simpa using h2
      have hpa : ∀ a : LogisticRow,
          (((fun l1 => if l1.toms_order_id == oid then
            logisticConflictUpdate l1 (mkLogisticRow sh l0.id oid now) else l1) a).toms_order_id
            == oid) = (a.toms_order_id == oid) := by
        intro a
        dsimp only
        split <;> rfl
      have hwfM : WF { db1 with logistics := db1.logistics.map (fun l1 =>
          if l1.toms_order_id == oid then
            logisticConflictUpdate l1 (mkLogisticRow sh l0.id oid now) else l1) } := by
        refine WF_logistics_map db1 hwf _ ?_
        intro l1
        dsimp only
        split <;> exact ⟨rfl, rfl⟩
      have hfoundM : findLogisticByOrder { db1 with logistics := db1.logistics.map (fun l1 =>
          if l1.toms_order_id == oid then
            logisticConflictUpdate l1 (mkLogisticRow sh l0.id oid now) else l1) } oid =
          some (logisticConflictUpdate l0 (mkLogisticRow sh l0.id oid now)) := by
        unfold findLogisticByOrder
        rw [find?_map_same (fun l1 : LogisticRow => l1.toms_order_id == oid)
          (fun l1 => if l1.toms_order_id == oid then
            logisticConflictUpdate l1 (mkLogisticRow sh l0.id oid now) else l1) hpa]
        have hfind2 : db1.logistics.find? (fun l1 => l1.toms_order_id == oid) = some l0 := hfl
        rw [hfind2]
        simp only [Option.map_some']
        rw [if_pos hkey]
      by_cases hh : sh.histories.length > 0
      · rw [if_pos hh]
        obtain ⟨hwf2, ho2, hi2, hs2, hn2, hf2⟩ :=
          histPhase_post sh.histories l0.id now _ hwfM oid _ hfoundM
        exact ⟨_, rfl, hwf2, ho2, hi2, hs2, hn2,
          logisticConflictUpdate l0 (mkLogisticRow sh l0.id oid now), hf2,
          fun sh' hsh' => by injection hsh' with h; subst h; rfl,
          fun hn => Option.noConfusion hn⟩
      · rw [if_neg hh]
        exact ⟨_, rfl, hwfM, rfl, rfl, rfl, Nat.le_refl _,
          logisticConflictUpdate l0 (mkLogisticRow sh l0.id oid now), hfoundM,
          fun sh' hsh' => by injection hsh' with h; subst h; rfl,
          fun hn => Option.noConfusion hn⟩
    | none =>
      rw [upsertLogistic_miss sh oid now db1 hfl]
      dsimp only
      have hwfA : WF { db1 with
          logistics := db1.logistics ++ [mkLogisticRow sh db1.nextId oid now]
          nextId := db1.nextId + 1 } :=
        WF_logistics_append db1 hwf oid hfl _ rfl rfl
      have hfoundA : findLogisticByOrder { db1 with
          logistics := db1.logistics ++ [mkLogisticRow sh db1.nextId oid now]
          nextId := db1.nextId + 1 } oid =
          some (mkLogisticRow sh db1.nextId oid now) := by
        unfold findLogisticByOrder
        rw [List.find?_append]
        have hfind2 : db1.logistics.find? (fun l1 => l1.toms_order_id == oid) = none := hfl
        rw [hfind2]
        simp [mkLogisticRow]
      by_cases hh : sh.histories.length > 0
      · rw [if_pos hh]
        obtain ⟨hwf2, ho2, hi2, hs2, hn2, hf2⟩ :=
          histPhase_post sh.histories db1.nextId now _ hwfA oid _ hfoundA
        exact ⟨_, rfl, hwf2, ho2, hi2, hs2, Nat.le_trans (Nat.le_succ _) hn2,
          mkLogisticRow sh db1.nextId oid now, hf2,
          fun sh' hsh' => by injection hsh' with h; subst h; rfl,
          fun hn => Option.noConfusion hn⟩
      · rw [if_neg hh]
        exact ⟨_, rfl, hwfA, rfl, rfl, rfl, Nat.le_succ _,
          mkLogisticRow sh db1.nextId oid now, hfoundA,
          fun sh' hsh' => by injection hsh' with h; subst h; rfl,
          fun hn => Option.noConfusion hn⟩
  | none =>
    dsimp only
    cases hfl : findLogisticByOrder db1 oid with
    | some l0 =>
      dsimp only
      exact ⟨db1, rfl, hwf, rfl, rfl, rfl, Nat.le_refl _, l0, hfl,
        fun sh' hsh' => Option.noConfusion hsh',
        fun _ l0' hl0' => Option.some.inj hl0'⟩
    | none =>
      dsimp only
      simp only [benign, Bool.false_eq_true, if_false]
      dsimp only [freshId]
      refine ⟨_, rfl, WF_logistics_append db1 hwf oid hfl _ rfl rfl, rfl, rfl, rfl,
        Nat.le_succ _, mkSyntheticLogistic db1.nextId oid now, ?_,
        fun sh' hsh' => Option.noConfusion hsh',
        fun _ l0' hl0' => Option.noConfusion hl0'⟩
      unfold findLogisticByOrder
      rw [List.find?_append]
      have hfind2 : db1.logistics.find? (fun l1 => l1.toms_order_id == oid) = none := hfl
      rw [hfind2]
      simp [mkSyntheticLogistic]

/-- Post-state of the benign item phase: it succeeds; with incoming items
the order's items become exactly the projected incoming items, and with none
the item table is untouched. -/
theorem upsertItemsPhase_post (od : OrderData) (c : String) (oid now : Nat)
    (db2 : DB) (hwf : WF db2) (lrow : LogisticRow)
    (hfound : findLogisticByOrder db2 oid = some lrow) :
    ∃ db3, upsertItemsPhase benign od c oid now db2 = (.ok oid, db3) ∧
      WF db3 ∧
      db3.orders = db2.orders ∧ db3.logistics = db2.logistics ∧
      db3.histories = db2.histories ∧ db3.shops = db2.shops ∧
      db2.nextId ≤ db3.nextId ∧
      (od.items = [] → db3.items = db2.items) ∧
      (od.items ≠ [] →
        (itemsOfOrder db3 oid).map itemContent =
          itemContentsSpec c lrow.tracking_no od.items 0) := by
  unfold upsertItemsPhase
  by_cases hlen : od.items.length > 0
  · rw [if_pos hlen]
    obtain ⟨⟨ids, hok⟩, ho, hl, hh, hs, hn, hcontents⟩ :=
      upsertOrderItems_found od.items oid c now db2 lrow hfound
    rcases hres : upsertOrderItems benign od.items oid c now db2 with ⟨r, dbr⟩
    rw [hres] at hok ho hl hh hs hn hcontents
    dsimp only at hok ho hl hh hs hn hcontents
    rw [hok]
    dsimp only
    refine ⟨dbr, rfl, WF_of_parts db2 dbr hwf ho hl hn, ho, hl, hh, hs, hn, ?_,
      fun _ => hcontents⟩
    intro hnil
    rw [hnil] at hlen
    simp at hlen
  · rw [if_neg hlen]
    have hnil : od.items = [] := List.length_eq_zero.mp (Nat.eq_zero_of_not_pos hlen)
    exact ⟨db2, rfl, hwf, rfl, rfl, rfl, rfl, Nat.le_refl _, fun _ => rfl,
      fun hne => absurd hnil hne⟩

/-- The benign `upsertOrder` run: it succeeds, preserves well-formedness and
the shop table, leaves a conflict-stable order row for the business key
(reusing a pre-existing row's id), leaves exactly one logistic row for the
order carrying the incoming tracking number (or the untouched pre-existing
row when no shipping data came), and rewrites the order's items to exactly
the incoming ones — except that with zero incoming items the item table is
untouched. -/
theorem upsertOrder_benign_run (hasTx : Bool) (od : OrderData) (c s : String)
    (now : Nat) (db : DB) (hwf : WF db) :
    ∃ oid db3,
      upsertOrder benign hasTx od c s now db =
        .ok ({ orderId := some oid, success := true }, db3) ∧
      WF db3 ∧ db3.shops = db.shops ∧ db.nextId ≤ db3.nextId ∧
      (∃ row, findOrderByNum db3 od.order_sn = some row ∧ row.id = oid ∧
        (∀ n, orderConflictUpdate row (mkOrderRow od c s oid n) =
          { row with updated_at := n }) ∧
        (∀ r0, findOrderByNum db od.order_sn = some r0 →
          oid = r0.id ∧ row = orderConflictUpdate r0 (mkOrderRow od c s r0.id now))) ∧
      (db3.logistics.filter (fun l => l.toms_order_id == oid)).length = 1 ∧
      (∃ l, findLogisticByOrder db3 oid = some l ∧
        (∀ sh, od.shipping = some sh → l.tracking_no = strOpt sh.tracking_number) ∧
        (od.shipping = none → ∀ l0, findLogisticByOrder db oid = some l0 → l = l0) ∧
        (od.items ≠ [] →
          (itemsOfOrder db3 oid).map itemContent =
            itemContentsSpec c l.tracking_no od.items 0)) ∧
      (od.items = [] → db3.items = db.items) := by
  obtain ⟨oid, db1, hbasic, hwf1, hlog1, hhist1, hitem1, hshop1, hnext1,
    row, hrow, hrowid, hfix, hdet⟩ := upsertOrderBasic_post od c s now db hwf
  obtain ⟨db2, hship, hwf2, hord2, hitem2, hshop2, hnext2, l, hfindl, htrack, hreuse⟩ :=
    upsertShipPhase_post od oid now db1 hwf1
  obtain ⟨db3, hitems, hwf3, hord3, hlog3, hhist3, hshop3, hnext3, hnil3, hcont3⟩ :=
    upsertItemsPhase_post od c oid now db2 hwf2 l hfindl
  have hcore : upsertOrderCore benign od c s now db = (.ok oid, db3) := by
    rw [upsertOrderCore_phases]
    rw [hbasic]
    dsimp only
    rw [hship]
    dsimp only
    exact hitems
  have hfindl1eq : findLogisticByOrder db1 oid = findLogisticByOrder db oid := by
    unfold findLogisticByOrder
    rw [hlog1]
  have hfind3 : findLogisticByOrder db3 oid = some l := by
    unfold findLogisticByOrder
    rw [hlog3]
    exact hfindl
  have hfindOrd3 : findOrderByNum db3 od.order_sn = some row := by
    unfold findOrderByNum
    rw [hord3, hord2]
    exact hrow
  refine ⟨oid, db3, ?_, hwf3, ?_, ?_, ⟨row, hfindOrd3, hrowid, hfix, hdet⟩,
    logistics_count_one db3 hwf3 oid l hfind3, ⟨l, hfind3, htrack, ?_, hcont3⟩, ?_⟩
  · unfold upsertOrder
    rw [hcore]
  · rw [hshop3, hshop2, hshop1]
  · exact Nat.le_trans hnext1 (Nat.le_trans hnext2 hnext3)
  · intro hsn l0 hl0
    exact hreuse hsn l0 (by rw [hfindl1eq]; exact hl0)
  · intro hnil
    rw [hnil3 hnil, hitem2, hitem1]

/-! ## C2 — amended statement -/

/-- C2, amended.  `_upsertOrderItems` runs only when the incoming detail
carries at least one item (`orderRepository.js:71`), so wholesale rewriting
holds for k ≥ 1: after upsert(D1) then upsert(D2) with D2 carrying a
non-empty item list, the persisted items of the order resolved for D2 are
exactly the items projected from D2, in positional `index` order — no item
of D1 survives unless it reappears in D2.  (For k = 0 the rewrite is
skipped and D1's items survive; see the counterexample.) -/
theorem C2_amended (od1 od2 : OrderData) (c s : String) (n1 n2 : Nat) (db : DB)
    (hwf : WF db) (hne : od2.items ≠ []) :
    ∃ oid1 db1 oid2 db2 l,
      upsertOrder benign true od1 c s n1 db =
        .ok ({ orderId := some oid1, success := true }, db1) ∧
      upsertOrder benign true od2 c s n2 db1 =
        .ok ({ orderId := some oid2, success := true }, db2) ∧
      findLogisticByOrder db2 oid2 = some l ∧
      (itemsOfOrder db2 oid2).map itemContent =
        itemContentsSpec c l.tracking_no od2.items 0 := by
  obtain ⟨oid1, db1, heq1, hwf1, -, -, -, -, -, -⟩ :=
    upsertOrder_benign_run true od1 c s n1 db hwf
  obtain ⟨oid2, db2, heq2, -, -, -, -, -, ⟨l, hfl, -, -, hcont⟩, -⟩ :=
    upsertOrder_benign_run true od2 c s n2 db1 hwf1
  exact ⟨oid1, db1, oid2, db2, l, heq1, heq2, hfl, hcont hne⟩

/-- C2, witness for the amended statement at the fixture inputs. -/
theorem C2_amended_witness :
    WF dbWithCarrier ∧ orderWithHistory.items ≠ [] ∧
    ∃ oid1 db1 oid2 db2 l,
      upsertOrder benign true baseOrder "C1" "SHOP1" 100 dbWithCarrier =
        .ok ({ orderId := some oid1, success := true }, db1) ∧
      upsertOrder benign true orderWithHistory "C1" "SHOP1" 200 db1 =
        .ok ({ orderId := some oid2, success := true }, db2) ∧
      findLogisticByOrder db2 oid2 = some l ∧
      (itemsOfOrder db2 oid2).map itemContent =
        itemContentsSpec "C1" l.tracking_no orderWithHistory.items 0 :=
  ⟨by decide, by decide,
   C2_amended baseOrder orderWithHistory "C1" "SHOP1" 100 200 dbWithCarrier
     (by decide) (by decide)⟩

/-! ## C4 — order idempotence -/

/-- C4.  Upserting the same detail twice is idempotent up to `updated_at`:
both benign runs succeed with the same order id, resolved by the
(`platform='shopee'`, `order_num`) business key (the second run reuses the
stored id on the hit), exactly one order row matches the key afterwards, the
second run's row differs from the first only in `updated_at`, and the item
contents of the order are unchanged by the second run. -/
theorem C4_confirmed (od : OrderData) (c s : String) (n1 n2 : Nat) (db : DB)
    (hwf : WF db) :
    ∃ oid db1 db2 row1 row2,
      upsertOrder benign true od c s n1 db =
        .ok ({ orderId := some oid, success := true }, db1) ∧
      upsertOrder benign true od c s n2 db1 =
        .ok ({ orderId := some oid, success := true }, db2) ∧
      findOrderByNum db1 od.order_sn = some row1 ∧ row1.id = oid ∧
      findOrderByNum db2 od.order_sn = some row2 ∧
      row2 = { row1 with updated_at := n2 } ∧
      (db2.orders.filter (orderKeyMatch od.order_sn)).length = 1 ∧
      (itemsOfOrder db2 oid).map itemContent =
        (itemsOfOrder db1 oid).map itemContent := by
  obtain ⟨oid1, db1, heq1, hwf1, -, -, ⟨row1, hrow1, hrowid1, hfix1, -⟩, -,
    ⟨l1, hfl1, htr1, -, hcont1⟩, hnil1⟩ := upsertOrder_benign_run true od c s n1 db hwf
  obtain ⟨oid2, db2, heq2, hwf2, -, -, ⟨row2, hrow2, hrowid2, -, hdet2⟩, -,
    ⟨l2, hfl2, htr2, hreuse2, hcont2⟩, hnil2⟩ :=
    upsertOrder_benign_run true od c s n2 db1 hwf1
  obtain ⟨hoid, hrowval⟩ := hdet2 row1 hrow1
  have hoide : oid1 = oid2 := (hoid.trans hrowid1).symm
  subst hoide
  have hrow2eq : row2 = { row1 with updated_at := n2 } := by
    rw [hrowval]
    nth_rewrite 1 [hrowid1]
    exact hfix1 n2
  have hitems : (itemsOfOrder db2 oid1).map itemContent =
      (itemsOfOrder db1 oid1).map itemContent := by
    by_cases hne : od.items = []
    · unfold itemsOfOrder
      rw [hnil2 hne]
    · have htn : l2.tracking_no = l1.tracking_no := by
        cases hshipc : od.shipping with
        | some sh => rw [htr2 sh hshipc, htr1 sh hshipc]
        | none => rw [hreuse2 hshipc l1 hfl1]
      rw [hcont2 hne, hcont1 hne, htn]
  exact ⟨oid1, db1, db2, row1, row2, heq1, heq2, hrow1, hrowid1, hrow2,
    hrow2eq, orders_count_one db2 hwf2 od.order_sn row2 hrow2, hitems⟩

/-- C4, witness at the fixture order and database. -/
theorem C4_confirmed_witness :
    WF dbWithCarrier ∧
    ∃ oid db1 db2 row1 row2,
      upsertOrder benign true orderWithHistory "C1" "SHOP1" 100 dbWithCarrier =
        .ok ({ orderId := some oid, success := true }, db1) ∧
      upsertOrder benign true orderWithHistory "C1" "SHOP1" 200 db1 =
        .ok ({ orderId := some oid, success := true }, db2) ∧
      findOrderByNum db1 orderWithHistory.order_sn = some row1 ∧ row1.id = oid ∧
      findOrderByNum db2 orderWithHistory.order_sn = some row2 ∧
      row2 = { row1 with updated_at := 200 } ∧
      (db2.orders.filter (orderKeyMatch orderWithHistory.order_sn)).length = 1 ∧
      (itemsOfOrder db2 oid).map itemContent =
        (itemsOfOrder db1 oid).map itemContent :=
  ⟨by decide,
   C4_confirmed orderWithHistory "C1" "SHOP1" 100 200 dbWithCarrier (by decide)⟩

/-! ## C8 — exactly one logistic row per order -/

/-- Auxiliary induction for C8: a fold of benign upserts keeps the database
well-formed, and once it is non-empty it leaves an order row for the common
business key with exactly one logistic row referencing it. -/
theorem foldUpserts_wf_and_key (c s : String) (now : Nat) (sn : String) :
    ∀ (ods : List OrderData), (∀ od ∈ ods, od.order_sn = sn) →
    ∀ db : DB, WF db →
      WF (foldUpserts ods c s now db) ∧
      (ods ≠ [] →
        ∃ row, findOrderByNum (foldUpserts ods c s now db) sn = some row ∧
          ((foldUpserts ods c s now db).logistics.filter
            (fun l => l.toms_order_id == row.id)).length = 1) := by
  intro ods
  induction ods with
  | nil =>
    intro _ db hwf
    exact ⟨hwf, fun h => absurd rfl h⟩
  | cons od rest ih =>
    intro hsn db hwf
    obtain ⟨oid, db3, heq, hwf3, -, -, ⟨row, hrow, hrowid, -, -⟩, hcount, -, -⟩ :=
      upsertOrder_benign_run true od c s now db hwf
    have hstep : foldUpserts (od :: rest) c s now db = foldUpserts rest c s now db3 := by
      unfold foldUpserts
      dsimp only [List.foldl]
      rw [heq]
    rw [hstep]
    obtain ⟨ihwf, ihkey⟩ := ih (fun o ho => hsn o (List.mem_cons_of_mem od ho)) db3 hwf3
    refine ⟨ihwf, fun _ => ?_⟩
    cases rest with
    | nil =>
      refine ⟨row, ?_, ?_⟩
      · unfold foldUpserts
        dsimp only [List.foldl]
        rw [← hsn od (List.mem_cons_self od [])]
        exact hrow
      · unfold foldUpserts
        dsimp only [List.foldl]
        rw [hrowid]
        exact hcount
    | cons od2 rest2 =>
      exact ihkey (by simp)

/-- C8.  After any non-empty sequence of benign `upsertOrder` transactions
for the order with business key `sn` (each in its own transaction, per
`collectOrders`), the database stays well-formed, an order row for the key
exists, and exactly one logistic row references it — including details with
no shipping data, for which the synthetic empty logistic row (or the reused
existing one) keeps the count at one. -/
theorem C8_confirmed (ods : List OrderData) (sn : String) (c s : String)
    (now : Nat) (db : DB) (hwf : WF db) (hne : ods ≠ [])
    (hsn : ∀ od ∈ ods, od.order_sn = sn) :
    WF (foldUpserts ods c s now db) ∧
    ∃ row, findOrderByNum (foldUpserts ods c s now db) sn = some row ∧
      ((foldUpserts ods c s now db).logistics.filter
        (fun l => l.toms_order_id == row.id)).length = 1 := by
  obtain ⟨hwf', hkey⟩ := foldUpserts_wf_and_key c s now sn ods hsn db hwf
  exact ⟨hwf', hkey hne⟩

/-- C8, witness: a detail without shipping data followed by one with
shipping data, starting from the empty database. -/
theorem C8_confirmed_witness :
    WF ({} : DB) ∧ ([baseOrder, orderWithHistory] ≠ ([] : List OrderData)) ∧
    (∀ od ∈ [baseOrder, orderWithHistory], od.order_sn = "250515ABC") ∧
    (WF (foldUpserts [baseOrder, orderWithHistory] "C1" "SHOP1" 100 {}) ∧
     ∃ row, findOrderByNum (foldUpserts [baseOrder, orderWithHistory] "C1" "SHOP1" 100 {})
         "250515ABC" = some row ∧
       ((foldUpserts [baseOrder, orderWithHistory] "C1" "SHOP1" 100 {}).logistics.filter
         (fun l => l.toms_order_id == row.id)).length = 1) :=
  ⟨by decide, by decide, by decide,
   C8_confirmed [baseOrder, orderWithHistory] "250515ABC" "C1" "SHOP1" 100 {}
     (by decide) (by decide) (by decide)⟩

/-! ## C9 — amended statement: who paginates, and how -/

/-- `foldl` preserves an invariant preserved by each step. -/
theorem foldl_preserve (f : γ → β → γ) (P : γ → Prop)
    (hf : ∀ a x, P a → P (f a x)) :
    ∀ (l : List β) (a : γ), P a → P (l.foldl f a) := by
  intro l
  induction l with
  | nil => intro a h; exact h
  | cons x xs ih => intro a h; exact ih (f a x) (hf a x h)

/-- `shipmentCursors` distributes over trace concatenation. -/
theorem shipmentCursors_append (t1 t2 : List ApiCall) :
    shipmentCursors (t1 ++ t2) = shipmentCursors t1 ++ shipmentCursors t2 :=
  List.filterMap_append t1 t2 _

/-- A tracking call contributes no shipment cursor. -/
theorem shipmentCursors_tracking (a b : Option String) :
    shipmentCursors [ApiCall.trackingNumber a b] = [] := rfl

/-- A shipment call contributes its cursor. -/
theorem shipmentCursors_single (cu : String) :
    shipmentCursors [ApiCall.shipmentList cu] = [cu] := rfl

/-- `orderListReqs` distributes over trace concatenation. -/
theorem orderListReqs_append (t1 t2 : List ApiCall) :
    orderListReqs (t1 ++ t2) = orderListReqs t1 ++ orderListReqs t2 :=
  List.filterMap_append t1 t2 _

/-- An order-detail call contributes no order-list request. -/
theorem orderListReqs_orderDetail (b : List String) :
    orderListReqs [ApiCall.orderDetail b] = [] := rfl

/-- A tracking call contributes no order-list request. -/
theorem orderListReqs_tracking (a b : Option String) :
    orderListReqs [ApiCall.trackingNumber a b] = [] := rfl

/-- `getMassTrackingInfo` adds no `get_shipment_list` call to the trace. -/
theorem getMassTrackingInfo_shipmentCursors (env : ApiEnv) (pkgs : List String)
    (tr : List ApiCall) :
    shipmentCursors (getMassTrackingInfo env pkgs tr).2 = shipmentCursors tr := by
  unfold getMassTrackingInfo
  dsimp only
  refine foldl_preserve _
    (fun a : List MassSuccessEntry × List String × List ApiCall =>
      shipmentCursors a.2.2 = shipmentCursors tr) ?_ pkgs _ rfl
  intro a x hP
  dsimp only
  cases env.trackingByPackageResp x with
  | error e =>
    try dsimp only
    rw [shipmentCursors_append, shipmentCursors_tracking, List.append_nil]
    exact hP
  | ok resp =>
    try dsimp only
    cases resp.response with
    | none =>
      try dsimp only
      rw [shipmentCursors_append, shipmentCursors_tracking, List.append_nil]
      exact hP
    | some ti =>
      try dsimp only
      split <;>
        (try dsimp only
         rw [shipmentCursors_append, shipmentCursors_tracking, List.append_nil]
         exact hP)

/-- `_processTrackingInfoBatch` adds no `get_shipment_list` call. -/
theorem processTrackingInfoBatch3_trace (env : ApiEnv) (pkgs : List String)
    (m : List (String × ShippingInfo)) (tr : List ApiCall) :
    shipmentCursors (processTrackingInfoBatch3 env pkgs m tr).2 = shipmentCursors tr := by
  unfold processTrackingInfoBatch3
  split
  · rfl
  · dsimp only
    cases (getMassTrackingInfo env pkgs tr).1.response with
    | none => exact getMassTrackingInfo_shipmentCursors env pkgs tr
    | some results => exact getMassTrackingInfo_shipmentCursors env pkgs tr

/-- The shipment pagination loop issues exactly the specified cursor chain:
it starts at the given cursor and follows `next_cursor` while `more`. -/
theorem fetchAllShipmentLoop_cursors (env : ApiEnv) :
    ∀ (fuel : Nat) (cursor : String) (m : List (String × ShippingInfo))
      (pend : List String) (tr : List ApiCall),
      shipmentCursors (fetchAllShipmentLoop env fuel cursor m pend tr).2.2 =
        shipmentCursors tr ++ specShipmentCursorChain env fuel cursor := by
  intro fuel
  induction fuel with
  | zero =>
    intro cursor m pend tr
    unfold fetchAllShipmentLoop specShipmentCursorChain
    rw [List.append_nil]
  | succ fuel ih =>
    intro cursor m pend tr
    unfold fetchAllShipmentLoop specShipmentCursorChain
    dsimp only
    cases henv : env.shipmentResp cursor with
    | error e =>
      try dsimp only
      rw [shipmentCursors_append, shipmentCursors_single]
    | ok resp =>
      try dsimp only
      cases hresp : resp.response with
      | none =>
        try dsimp only
        rw [shipmentCursors_append, shipmentCursors_single]
      | some body =>
        try dsimp only
        cases hmore : body.more with
        | true =>
          rw [if_pos rfl, if_pos rfl, ih]
          cases holist : body.order_list with
          | none =>
            try dsimp only
            rw [shipmentCursors_append, shipmentCursors_single, List.append_assoc,
                List.singleton_append]
          | some lst =>
            cases lst with
            | nil =>
              try dsimp only
              rw [shipmentCursors_append, shipmentCursors_single, List.append_assoc,
                  List.singleton_append]
            | cons e es =>
              try dsimp only
              split
              · try dsimp only
                rw [processTrackingInfoBatch3_trace, shipmentCursors_append,
                    shipmentCursors_single, List.append_assoc, List.singleton_append]
              · try dsimp only
                rw [shipmentCursors_append, shipmentCursors_single, List.append_assoc,
                    List.singleton_append]
        | false =>
          rw [if_neg Bool.false_ne_true, if_neg Bool.false_ne_true]
          cases holist : body.order_list with
          | none =>
            try dsimp only
            rw [shipmentCursors_append, shipmentCursors_single]
          | some lst =>
            cases lst with
            | nil =>
              try dsimp only
              rw [shipmentCursors_append, shipmentCursors_single]
            | cons e es =>
              try dsimp only
              rw [if_pos (by simp)]
              try dsimp only
              rw [processTrackingInfoBatch3_trace, shipmentCursors_append,
                  shipmentCursors_single]

/-- `_fetchAllShipmentInfo` issues exactly the specified shipment cursor
chain, starting from the empty cursor. -/
theorem fetchAllShipmentInfo_cursors (env : ApiEnv) (fuel : Nat) :
    shipmentCursors (fetchAllShipmentInfo env fuel).2 =
      specShipmentCursorChain env fuel "" := by
  unfold fetchAllShipmentInfo
  dsimp only
  have h := fetchAllShipmentLoop_cursors env fuel "" [] [] []
  split
  · exact h
  · rw [processTrackingInfoBatch3_trace]
    exact h

/-- One batch of `_processOrderDetails` adds no `get_order_list` call. -/
theorem processBatch_orderListReqs (fe : FailEnv) (env : ApiEnv) (c sId : String)
    (now : Nat) (batch : List String) (stats : Stats) (db : DB) (tr : List ApiCall) :
    orderListReqs (processBatch fe env c sId now batch stats db tr).2.2 =
      orderListReqs tr := by
  unfold processBatch
  try dsimp only
  cases env.orderDetailResp batch with
  | error e =>
    try dsimp only
    rw [orderListReqs_append, orderListReqs_orderDetail, List.append_nil]
  | ok resp =>
    try dsimp only
    cases resp.response with
    | none =>
      try dsimp only
      rw [orderListReqs_append, orderListReqs_orderDetail, List.append_nil]
    | some body =>
      try dsimp only
      cases body.order_list with
      | none =>
        try dsimp only
        rw [orderListReqs_append, orderListReqs_orderDetail, List.append_nil]
      | some details =>
        try dsimp only
        rw [orderListReqs_append, orderListReqs_orderDetail, List.append_nil]

/-- `_processOrderDetails` adds no `get_order_list` call. -/
theorem processOrderDetails_orderListReqs (fe : FailEnv) (env : ApiEnv)
    (shop : ShopRow) (now : Nat) (sns : List String) (stats : Stats) (db : DB)
    (tr : List ApiCall) (s2 : Stats) (d2 : DB) (t2 : List ApiCall)
    (h : processOrderDetails fe env shop now sns stats db tr = .ok (s2, d2, t2)) :
    orderListReqs t2 = orderListReqs tr := by
  unfold processOrderDetails at h
  split at h
  · exact Except.noConfusion h
  · dsimp only at h
    injection h with h2
    have hp := foldl_preserve
      (fun acc batch => processBatch fe env (shop.companyid.getD "") shop.shop_id now
        batch acc.1 acc.2.1 acc.2.2)
      (fun acc : Stats × DB × List ApiCall => orderListReqs acc.2.2 = orderListReqs tr)
      (fun a x hPa => by
        try dsimp only
        rw [processBatch_orderListReqs]
        exact hPa)
      (chunkList 50 sns) (stats, db, tr) rfl
    rw [h2] at hp
    exact hp

/-- The first fix-up loop adds no `get_order_list` call. -/
theorem fixMissingCarrier_orderListReqs (env : ApiEnv) (now : Nat) :
    ∀ (recs : List (LogisticRow × String)) (db : DB) (tr : List ApiCall),
      orderListReqs (fixMissingCarrier env now recs db tr).2 = orderListReqs tr := by
  intro recs
  induction recs with
  | nil => intro db tr; rfl
  | cons p rest ih =>
    obtain ⟨l, sn⟩ := p
    intro db tr
    unfold fixMissingCarrier
    try dsimp only
    cases env.orderDetailResp [sn] with
    | error e =>
      try dsimp only
      rw [ih, orderListReqs_append, orderListReqs_orderDetail, List.append_nil]
    | ok resp =>
      try dsimp only
      cases resp.response with
      | none =>
        try dsimp only
        rw [ih, orderListReqs_append, orderListReqs_orderDetail, List.append_nil]
      | some body =>
        try dsimp only
        cases body.order_list with
        | none =>
          try dsimp only
          rw [ih, orderListReqs_append, orderListReqs_orderDetail, List.append_nil]
        | some lst =>
          cases lst with
          | nil =>
            try dsimp only
            rw [ih, orderListReqs_append, orderListReqs_orderDetail, List.append_nil]
          | cons od rest2 =>
            try dsimp only
            split <;>
              rw [ih, orderListReqs_append, orderListReqs_orderDetail, List.append_nil]

/-- The second fix-up loop adds no `get_order_list` call. -/
theorem fixMissingTracking_orderListReqs (env : ApiEnv) (now : Nat) :
    ∀ (recs : List (LogisticRow × String)) (db : DB) (tr : List ApiCall),
      orderListReqs (fixMissingTracking env now recs db tr).2 = orderListReqs tr := by
  intro recs
  induction recs with
  | nil => intro db tr; rfl
  | cons p rest ih =>
    obtain ⟨l, sn⟩ := p
    intro db tr
    unfold fixMissingTracking
    try dsimp only
    cases env.trackingResp sn with
    | error e =>
      try dsimp only
      rw [ih, orderListReqs_append, orderListReqs_tracking, List.append_nil]
    | ok resp =>
      try dsimp only
      cases resp.response with
      | none =>
        try dsimp only
        rw [ih, orderListReqs_append, orderListReqs_tracking, List.append_nil]
      | some ti =>
        try dsimp only
        cases extractTrackingNumber ti with
        | none =>
          try dsimp only
          rw [ih, orderListReqs_append, orderListReqs_tracking, List.append_nil]
        | some t =>
          try dsimp only
          rw [ih, orderListReqs_append, orderListReqs_tracking, List.append_nil]

/-- `fixIncompleteLogisticInfo` adds no `get_order_list` call. -/
theorem fixIncompleteLogisticInfo_orderListReqs (env : ApiEnv) (shop : ShopRow)
    (now : Nat) (db : DB) (tr : List ApiCall) :
    orderListReqs (fixIncompleteLogisticInfo env shop now db tr).2 =
      orderListReqs tr := by
  unfold fixIncompleteLogisticInfo
  try dsimp only
  rw [fixMissingTracking_orderListReqs, fixMissingCarrier_orderListReqs]

/-- Every `get_order_list` request issued by the retry loop asks for the
first page: cursor `""` and page size 100; `next_cursor` is never used. -/
theorem collectLoop_firstPageOnly (fe : FailEnv) (env : ApiEnv) (vs : ShopRow)
    (nowSec tf tt2 nowDb : Nat) :
    ∀ (fuel : Nat) (stats : Stats) (db : DB) (tr : List ApiCall),
      (∀ req ∈ orderListReqs tr, req.cursor = "" ∧ req.page_size = 100) →
      ∀ req ∈ orderListReqs
        (collectLoop fe env vs nowSec tf tt2 nowDb fuel stats db tr).2.2,
        req.cursor = "" ∧ req.page_size = 100 := by
  intro fuel
  induction fuel with
  | zero =>
    intro stats db tr hP
    exact hP
  | succ fuel ih =>
    intro stats db tr hP
    have hP2 : ∀ req ∈ orderListReqs (tr ++ [ApiCall.orderList (vs.access_token.getD "")
        (mkOrderListRequest nowSec { time_range_field := some "update_time", time_from := some tf, time_to := some tt2, page_size := some 100 })]),
        req.cursor = "" ∧ req.page_size = 100 := by
      intro req hmem
      rw [orderListReqs_append] at hmem
      rcases List.mem_append.mp hmem with h | h
      · exact hP req h
      · have h2 : req ∈ [mkOrderListRequest nowSec { time_range_field := some "update_time", time_from := some tf, time_to := some tt2, page_size := some 100 }] := h
        rw [List.mem_singleton.mp h2]
        exact ⟨rfl, rfl⟩
    unfold collectLoop
    dsimp only
    split
    · split
      · exact hP2
      · exact ih _ _ _ hP2
    · split
      · exact hP2
      · split
        · exact hP2
        · exact hP2
        · split
          · split
            · exact hP2
            · exact ih _ _ _ hP2
          · rename_i stats2 db2 tr2 heq
            intro req hmem
            rw [fixIncompleteLogisticInfo_orderListReqs] at hmem
            have ht := processOrderDetails_orderListReqs fe env vs nowDb _ _ db _ _ _ _ heq
            rw [ht] at hmem
            exact hP2 req hmem

/-- `collectOrders` only ever requests the first order-list page. -/
theorem collectOrders_firstPageOnly (fe : FailEnv) (env : ApiEnv) (shop : ShopRow)
    (maxRetry nowSec utcTodayMs nowDb : Nat) (db : DB) :
    ∀ req ∈ orderListReqs
      (collectOrders fe env shop maxRetry nowSec utcTodayMs nowDb db).2.2,
      req.cursor = "" ∧ req.page_size = 100 := by
  unfold collectOrders
  dsimp only
  cases db.shops.find? (fun s => s.id == shop.id && s.deleted == none && s.isactive) with
  | none => exact fun req h => absurd h (List.not_mem_nil req)
  | some vs =>
    dsimp only
    split
    · exact fun req h => absurd h (List.not_mem_nil req)
    · exact collectLoop_firstPageOnly fe env vs nowSec _ _ nowDb (maxRetry + 1) {} db []
        (fun req h => absurd h (List.not_mem_nil req))

/-- C9, amended.  Cursor pagination is implemented by the shipment-list
walker of the older service (`part_003`): its `get_shipment_list` cursor
trace is exactly the specified chain — start at `""`, re-issue with
`cursor = next_cursor` while `more` — for every marketplace behaviour and
every loop budget.  The order-list collector, by contrast, never follows
`next_cursor`: every `get_order_list` request it issues carries the empty
cursor (the first page) and the default page size 100, so only the first
page of the window is retrieved (see the counterexample). -/
theorem C9_amended (env : ApiEnv) (fuel : Nat) (fe : FailEnv) (shop : ShopRow)
    (maxRetry nowSec utcTodayMs nowDb : Nat) (db : DB) :
    shipmentCursors (fetchAllShipmentInfo env fuel).2 =
      specShipmentCursorChain env fuel "" ∧
    ∀ req ∈ orderListReqs
      (collectOrders fe env shop maxRetry nowSec utcTodayMs nowDb db).2.2,
      req.cursor = "" ∧ req.page_size = 100 :=
  ⟨fetchAllShipmentInfo_cursors env fuel,
   collectOrders_firstPageOnly fe env shop maxRetry nowSec utcTodayMs nowDb db⟩

/-! ## C7 — digest facts -/

/-- Bytes rendered from a 32-bit word are below 256. -/
theorem wordBytes_lt (w : Nat) : ∀ b ∈ wordBytes w, b < 256 := by
  intro b hb
  simp only [wordBytes, List.mem_cons, List.not_mem_nil, or_false] at hb
  rcases hb with rfl | rfl | rfl | rfl <;> exact Nat.mod_lt _ (by decide)

/-- SHA-256 digests are 32 bytes long. -/
theorem sha256_length (msg : List Nat) : (sha256 msg).length = 32 := by
  unfold sha256
  simp [wordBytes]

/-- SHA-256 digest bytes are below 256. -/
theorem sha256_bytes_lt (msg : List Nat) : ∀ b ∈ sha256 msg, b < 256 := by
  unfold sha256
  intro b hb
  simp only [List.mem_append, or_assoc] at hb
  rcases hb with h | h | h | h | h | h | h | h <;> exact wordBytes_lt _ _ h

/-- HMAC-SHA256 digests are 32 bytes long. -/
theorem hmacSha256_length (k m : List Nat) : (hmacSha256 k m).length = 32 := by
  unfold hmacSha256
  exact sha256_length _

/-- HMAC-SHA256 digest bytes are below 256. -/
theorem hmacSha256_bytes_lt (k m : List Nat) : ∀ b ∈ hmacSha256 k m, b < 256 := by
  unfold hmacSha256
  exact sha256_bytes_lt _

/-- Accumulator form of the base-256 fold. -/
theorem bytesToNat_aux : ∀ (l : List Nat) (a : Nat),
    l.foldl (fun a b => a * 256 + b) a = a * 256 ^ l.length + bytesToNat l := by
  intro l
  induction l with
  | nil => intro a; simp [bytesToNat]
  | cons x xs ih =>
    intro a
    have h1 : (x :: xs).foldl (fun a b => a * 256 + b) a =
        xs.foldl (fun a b => a * 256 + b) (a * 256 + x) := rfl
    have h2 : bytesToNat (x :: xs) = xs.foldl (fun a b => a * 256 + b) (0 * 256 + x) := rfl
    rw [h1, ih (a * 256 + x), h2, ih (0 * 256 + x), List.length_cons]
    ring

/-- Head decomposition of the base-256 value. -/
theorem bytesToNat_cons (x : Nat) (xs : List Nat) :
    bytesToNat (x :: xs) = x * 256 ^ xs.length + bytesToNat xs := by
  have h : bytesToNat (x :: xs) = xs.foldl (fun a b => a * 256 + b) (0 * 256 + x) := rfl
  rw [h, bytesToNat_aux]
  ring

/-- The base-256 value of a byte list is bounded by 256 to its length. -/
theorem bytesToNat_lt : ∀ (l : List Nat), (∀ b ∈ l, b < 256) →
    bytesToNat l < 256 ^ l.length := by
  intro l
  induction l with
  | nil => intro _; decide
  | cons x xs ih =>
    intro hb
    rw [bytesToNat_cons, List.length_cons]
    have hx : x < 256 := hb x (List.mem_cons_self x xs)
    have hxs : bytesToNat xs < 256 ^ xs.length :=
      ih (fun b hbm => hb b (List.mem_cons_of_mem x hbm))
    calc x * 256 ^ xs.length + bytesToNat xs
        < x * 256 ^ xs.length + 256 ^ xs.length := by omega
      _ = (x + 1) * 256 ^ xs.length := by ring
      _ ≤ 256 * 256 ^ xs.length := Nat.mul_le_mul_right _ (by omega)
      _ = 256 ^ (xs.length + 1) := by ring

/-- Same-length bounded byte lists with the same base-256 value are equal. -/
theorem bytesToNat_inj : ∀ (l1 l2 : List Nat), l1.length = l2.length →
    (∀ b ∈ l1, b < 256) → (∀ b ∈ l2, b < 256) →
    bytesToNat l1 = bytesToNat l2 → l1 = l2 := by
  intro l1
  induction l1 with
  | nil =>
    intro l2 hlen _ _ _
    cases l2 with
    | nil => rfl
    | cons y ys => simp at hlen
  | cons x xs ih =>
    intro l2 hlen hb1 hb2 heq
    cases l2 with
    | nil => simp at hlen
    | cons y ys =>
      have hlen2 : xs.length = ys.length := by simpa using hlen
      rw [bytesToNat_cons, bytesToNat_cons, hlen2] at heq
      have hxs : bytesToNat xs < 256 ^ ys.length := by
        rw [← hlen2]
        exact bytesToNat_lt xs (fun b hbm => hb1 b (List.mem_cons_of_mem x hbm))
      have hys : bytesToNat ys < 256 ^ ys.length :=
        bytesToNat_lt ys (fun b hbm => hb2 b (List.mem_cons_of_mem y hbm))
      have hB : 0 < 256 ^ ys.length := pow_pos (by decide) ys.length
      have e1 : (x * 256 ^ ys.length + bytesToNat xs) / 256 ^ ys.length = x := by
        rw [Nat.mul_comm, Nat.mul_add_div hB, Nat.div_eq_of_lt hxs, Nat.add_zero]
      have e2 : (y * 256 ^ ys.length + bytesToNat ys) / 256 ^ ys.length = y := by
        rw [Nat.mul_comm, Nat.mul_add_div hB, Nat.div_eq_of_lt hys, Nat.add_zero]
      have hx : x = y := by
        rw [← e1, heq, e2]
      subst hx
      have hr : bytesToNat xs = bytesToNat ys := Nat.add_left_cancel heq
      rw [ih ys hlen2 (fun b hbm => hb1 b (List.mem_cons_of_mem x hbm))
        (fun b hbm => hb2 b (List.mem_cons_of_mem x hbm)) hr]

/-- C7, counterexample.  The digest has at most 256³² values while there are
infinitely many access tokens, so two different tokens — every other
component held fixed — produce the same signature: changing a component does
not always change the digest. -/
theorem C7_counterexample :
    ∃ t1 t2 : String, t1 ≠ t2 ∧
      generateSignature "secret" "PARTNER" "/api/v2/order/get_order_list" 1700000000
        (some t1) (some "555001") =
      generateSignature "secret" "PARTNER" "/api/v2/order/get_order_list" 1700000000
        (some t2) (some "555001") := by
  have hF : ∀ t : String, bytesToNat (hmacSha256 (utf8Encode "secret")
      (utf8Encode (signBaseString "PARTNER" "/api/v2/order/get_order_list" 1700000000
        (some t) (some "555001")))) < 256 ^ 32 := by
    intro t
    have h1 := bytesToNat_lt _ (hmacSha256_bytes_lt (utf8Encode "secret")
      (utf8Encode (signBaseString "PARTNER" "/api/v2/order/get_order_list" 1700000000
        (some t) (some "555001"))))
    rw [hmacSha256_length] at h1
    exact h1
  obtain ⟨t1, t2, hne, heq⟩ := Finite.exists_ne_map_eq_of_infinite
    (fun t : String => (⟨_, hF t⟩ : Fin (256 ^ 32)))
  refine ⟨t1, t2, hne, ?_⟩
  have hv : bytesToNat (hmacSha256 (utf8Encode "secret")
      (utf8Encode (signBaseString "PARTNER" "/api/v2/order/get_order_list" 1700000000
        (some t1) (some "555001")))) =
      bytesToNat (hmacSha256 (utf8Encode "secret")
      (utf8Encode (signBaseString "PARTNER" "/api/v2/order/get_order_list" 1700000000
        (some t2) (some "555001")))) := congrArg Fin.val heq
  have hd := bytesToNat_inj _ _
    (by rw [hmacSha256_length, hmacSha256_length])
    (hmacSha256_bytes_lt _ _) (hmacSha256_bytes_lt _ _) hv
  unfold generateSignature
  rw [hd]

/-! ## C7 — amended statement -/

/-- Equation form of the decimal renderer. -/
theorem decDigits_eq (n : Nat) : decDigits n =
    if n < 10 then [Nat.digitChar n]
    else decDigits (n / 10) ++ [Nat.digitChar (n % 10)] := by
  conv_lhs => rw [decDigits]
  rfl

/-- `Nat.toDigitsCore` renders the decimal digits when given enough fuel. -/
theorem toDigitsCore_eq_decDigits : ∀ (fuel n : Nat) (acc : List Char),
    n < 10 ^ (fuel + 1) →
    Nat.toDigitsCore 10 (fuel + 1) n acc = decDigits n ++ acc := by
  intro fuel
  induction fuel with
  | zero =>
    intro n acc hn
    have hn10 : n < 10 := by simpa using hn
    have hnd : n / 10 = 0 := Nat.div_eq_of_lt hn10
    unfold Nat.toDigitsCore
    dsimp only
    rw [if_pos hnd, decDigits_eq, if_pos hn10, Nat.mod_eq_of_lt hn10]
    rfl
  | succ fuel ih =>
    intro n acc hn
    unfold Nat.toDigitsCore
    dsimp only
    by_cases hnd : n / 10 = 0
    · have hn10 : n < 10 := by
        have h1 := Nat.div_add_mod n 10
        have h2 := Nat.mod_lt n (show 0 < 10 by decide)
        omega
      rw [if_pos hnd, decDigits_eq, if_pos hn10, Nat.mod_eq_of_lt hn10]
      rfl
    · have hn10 : ¬ n < 10 := fun hcon => hnd (Nat.div_eq_of_lt hcon)
      have hdiv : n / 10 < 10 ^ (fuel + 1) := by
        rw [Nat.div_lt_iff_lt_mul (by decide : 0 < 10)]
        calc n < 10 ^ (fuel + 1 + 1) := hn
          _ = 10 ^ (fuel + 1) * 10 := by ring
      rw [if_neg hnd, ih (n / 10) (Nat.digitChar (n % 10) :: acc) hdiv]
      conv_rhs => rw [decDigits_eq]
      rw [if_neg hn10, List.append_assoc]
      rfl

/-- `Nat.toDigits` base 10 is the decimal renderer. -/
theorem toDigits10_eq (n : Nat) : Nat.toDigits 10 n = decDigits n := by
  have h : n < 10 ^ (n + 1) := by
    calc n < 10 ^ n := Nat.lt_pow_self (by decide) n
      _ ≤ 10 ^ (n + 1) := Nat.pow_le_pow_right (by decide) (Nat.le_succ n)
  have h2 := toDigitsCore_eq_decDigits n n [] h
  unfold Nat.toDigits
  rw [h2, List.append_nil]

/-- The decimal rendering is never empty. -/
theorem decDigits_ne_nil (n : Nat) : decDigits n ≠ [] := by
  rw [decDigits_eq]
  split
  · exact fun h => List.noConfusion h
  · intro h
    exact absurd (List.append_eq_nil.mp h).2 (fun h2 => List.noConfusion h2)

/-- `Nat.digitChar` is injective on digits. -/
theorem digitChar_inj_lt (a b : Nat) (ha : a < 10) (hb : b < 10)
    (h : Nat.digitChar a = Nat.digitChar b) : a = b := by
  have hfin : ∀ i j : Fin 10, Nat.digitChar i.val = Nat.digitChar j.val → i.val = j.val := by
    decide
  exact hfin ⟨a, ha⟩ ⟨b, hb⟩ h

/-- The decimal rendering is injective. -/
theorem decDigits_inj : ∀ (m n : Nat), decDigits m = decDigits n → m = n := by
  intro m
  induction m using Nat.strong_induction_on with
  | _ m ih =>
    intro n h
    by_cases hm : m < 10
    · by_cases hn : n < 10
      · rw [decDigits_eq m, if_pos hm, decDigits_eq n, if_pos hn] at h
        exact digitChar_inj_lt m n hm hn (List.head_eq_of_cons_eq h)
      · rw [decDigits_eq m, if_pos hm, decDigits_eq n, if_neg hn] at h
        have hlen := congrArg List.length h
        simp only [List.length_append, List.length_cons, List.length_nil] at hlen
        have h0 : (decDigits (n / 10)).length = 0 := by omega
        exact absurd (List.length_eq_zero.mp h0) (decDigits_ne_nil (n / 10))
    · by_cases hn : n < 10
      · rw [decDigits_eq m, if_neg hm, decDigits_eq n, if_pos hn] at h
        have hlen := congrArg List.length h
        simp only [List.length_append, List.length_cons, List.length_nil] at hlen
        have h0 : (decDigits (m / 10)).length = 0 := by omega
        exact absurd (List.length_eq_zero.mp h0) (decDigits_ne_nil (m / 10))
      · rw [decDigits_eq m, if_neg hm, decDigits_eq n, if_neg hn] at h
        obtain ⟨h1, h2⟩ := List.append_inj' h (by simp)
        have hdvd : m / 10 = n / 10 :=
          ih (m / 10) (Nat.div_lt_self (by omega) (by decide)) (n / 10) h1
        have hmod : m % 10 = n % 10 :=
          digitChar_inj_lt _ _ (Nat.mod_lt _ (by decide)) (Nat.mod_lt _ (by decide))
            (List.head_eq_of_cons_eq h2)
        have hm10 := Nat.div_add_mod m 10
        have hn10 := Nat.div_add_mod n 10
        omega

/-- The decimal rendering of naturals by `toString` is injective. -/
theorem natToString_inj (m n : Nat) (h : toString m = toString n) : m = n := by
  have h2 : Nat.toDigits 10 m = Nat.toDigits 10 n := by
    have h3 := congrArg String.data h
    simpa [toString, Nat.repr, List.asString] using h3
  rw [toDigits10_eq, toDigits10_eq] at h2
  exact decDigits_inj m n h2

/-- Strings with equal character data are equal. -/
theorem string_data_inj (s1 s2 : String) (h : s1.data = s2.data) : s1 = s2 := by
  cases s1
  cases s2
  cases h
  rfl

/-- The UTF-8 fold over an arbitrary accumulator. -/
theorem utf8_foldr_acc : ∀ (l : List Char) (acc : List Nat),
    l.foldr (fun c a => utf8EncodeChar c ++ a) acc =
    l.foldr (fun c a => utf8EncodeChar c ++ a) [] ++ acc := by
  intro l
  induction l with
  | nil => intro acc; simp
  | cons c cs ih =>
    intro acc
    simp only [List.foldr_cons]
    rw [ih acc, List.append_assoc]

/-- UTF-8 encoding distributes over string concatenation. -/
theorem utf8Encode_append (s1 s2 : String) :
    utf8Encode (s1 ++ s2) = utf8Encode s1 ++ utf8Encode s2 := by
  unfold utf8Encode
  rw [String.data_append, List.foldr_append, utf8_foldr_acc]

/-- The bytes signed by `_generateSignature` are exactly the specified
concatenation payload: a missing or empty optional contributes no bytes. -/
theorem signBaseString_bytes (pid path : String) (ts : Nat)
    (tok sid : Option String) :
    utf8Encode (signBaseString pid path ts tok sid) =
      specSignPayload pid path ts tok sid := by
  unfold signBaseString specSignPayload
  dsimp only
  cases htok : strTruthy tok <;> cases hsid : strTruthy sid <;>
    simp [utf8Encode_append, List.append_assoc]

/-- The character data of the base string, in right-associated form. -/
theorem signBaseString_data (pid path : String) (ts : Nat) (tok sid : Option String) :
    (signBaseString pid path ts tok sid).data =
      pid.data ++ (path.data ++ ((toString ts).data ++
        ((if strTruthy tok then (tok.getD "").data else []) ++
         (if strTruthy sid then (sid.getD "").data else [])))) := by
  unfold signBaseString
  dsimp only
  cases htok : strTruthy tok <;> cases hsid : strTruthy sid <;>
    simp [String.data_append, List.append_assoc]

/-- The rendered hex character list of a byte list. -/
theorem hexChars_length : ∀ bs : List Nat,
    (bs.foldr (fun b acc => hexDigit (b / 16) :: hexDigit (b % 16) :: acc) []).length =
      2 * bs.length := by
  intro bs
  induction bs with
  | nil => rfl
  | cons b t ih =>
    simp only [List.foldr_cons, List.length_cons, ih, List.length_cons]
    omega

/-- The hex rendering of a byte list has two characters per byte. -/
theorem bytesToHex_length (bs : List Nat) : (bytesToHex bs).length = 2 * bs.length := by
  unfold bytesToHex
  exact hexChars_length bs

/-- A digit below 16 renders as a lowercase hexadecimal character. -/
theorem hexDigit_mem (n : Nat) (h : n < 16) : hexDigit n ∈ lowerHexChars := by
  have hfin : ∀ i : Fin 16, hexDigit i.val ∈ lowerHexChars := by decide
  exact hfin ⟨n, h⟩

/-- Every character of the hex rendering of bounded bytes is lowercase hex. -/
theorem hexChars_mem : ∀ (bs : List Nat), (∀ b ∈ bs, b < 256) →
    ∀ c ∈ bs.foldr (fun b acc => hexDigit (b / 16) :: hexDigit (b % 16) :: acc) [],
      c ∈ lowerHexChars := by
  intro bs
  induction bs with
  | nil => intro _ c hc; exact absurd hc (List.not_mem_nil c)
  | cons b t ih =>
    intro hb c hc
    simp only [List.foldr_cons, List.mem_cons] at hc
    have hbb : b < 256 := hb b (List.mem_cons_self b t)
    rcases hc with rfl | rfl | hc
    · exact hexDigit_mem _ ((Nat.div_lt_iff_lt_mul (by decide)).mpr (by omega))
    · exact hexDigit_mem _ (Nat.mod_lt _ (by decide))
    · exact ih (fun x hx => hb x (List.mem_cons_of_mem b hx)) c hc

/-- Every character of the hex rendering of bounded bytes is lowercase hex
(string form). -/
theorem bytesToHex_mem (bs : List Nat) (hb : ∀ b ∈ bs, b < 256) :
    ∀ c ∈ (bytesToHex bs).data, c ∈ lowerHexChars := by
  unfold bytesToHex
  exact hexChars_mem bs hb

/-- C7, amended.  The signature is the lowercase-hex HMAC-SHA256, keyed by
the partner secret, over exactly the concatenated UTF-8 bytes of
`partner_id || path || timestamp || access_token || shop_id` — a missing or
empty optional contributing no bytes (never the literal `"null"`); it is a
64-character lowercase-hex string and a function of exactly that tuple.
Changing a single component changes the *base string* being signed: the
partner id, path and timestamp components are each injective with the
others fixed, as are truthy access tokens and shop ids.  The digest itself
can nevertheless collide across different tuples (see the counterexample),
so "changing any component changes the digest" does not hold. -/
theorem C7_amended (secret pid path : String) (ts : Nat) (tok sid : Option String) :
    generateSignature secret pid path ts tok sid =
      bytesToHex (hmacSha256 (utf8Encode secret) (specSignPayload pid path ts tok sid)) ∧
    (generateSignature secret pid path ts tok sid).length = 64 ∧
    (∀ c ∈ (generateSignature secret pid path ts tok sid).data, c ∈ lowerHexChars) ∧
    (∀ pid2, signBaseString pid2 path ts tok sid = signBaseString pid path ts tok sid →
      pid2 = pid) ∧
    (∀ path2, signBaseString pid path2 ts tok sid = signBaseString pid path ts tok sid →
      path2 = path) ∧
    (∀ ts2, signBaseString pid path ts2 tok sid = signBaseString pid path ts tok sid →
      ts2 = ts) ∧
    (∀ t1 t2 : String, t1 ≠ "" → t2 ≠ "" →
      signBaseString pid path ts (some t1) sid = signBaseString pid path ts (some t2) sid →
      t1 = t2) ∧
    (∀ u1 u2 : String, u1 ≠ "" → u2 ≠ "" →
      signBaseString pid path ts tok (some u1) = signBaseString pid path ts tok (some u2) →
      u1 = u2) := by
  refine ⟨?_, ?_, ?_, ?_, ?_, ?_, ?_, ?_⟩
  · unfold generateSignature
    rw [signBaseString_bytes]
  · unfold generateSignature
    rw [bytesToHex_length, hmacSha256_length]
  · unfold generateSignature
    exact bytesToHex_mem _ (hmacSha256_bytes_lt _ _)
  · intro pid2 h
    have hd := congrArg String.data h
    rw [signBaseString_data, signBaseString_data] at hd
    exact string_data_inj _ _ (List.append_cancel_right hd)
  · intro path2 h
    have hd := congrArg String.data h
    rw [signBaseString_data, signBaseString_data] at hd
    exact string_data_inj _ _
      (List.append_cancel_right (List.append_cancel_left hd))
  · intro ts2 h
    have hd := congrArg String.data h
    rw [signBaseString_data, signBaseString_data] at hd
    exact natToString_inj ts2 ts (string_data_inj _ _
      (List.append_cancel_right (List.append_cancel_left (List.append_cancel_left hd))))
  · intro t1 t2 ht1 ht2 h
    have htt1 : strTruthy (some t1) = true := by simp [strTruthy, ht1]
    have htt2 : strTruthy (some t2) = true := by simp [strTruthy, ht2]
    have hd := congrArg String.data h
    rw [signBaseString_data, signBaseString_data, if_pos htt1, if_pos htt2] at hd
    simp only [Option.getD_some] at hd
    exact string_data_inj _ _ (List.append_cancel_right (List.append_cancel_left
      (List.append_cancel_left (List.append_cancel_left hd))))
  · intro u1 u2 hu1 hu2 h
    have huu1 : strTruthy (some u1) = true := by simp [strTruthy, hu1]
    have huu2 : strTruthy (some u2) = true := by simp [strTruthy, hu2]
    have hd := congrArg String.data h
    rw [signBaseString_data, signBaseString_data, if_pos huu1, if_pos huu2] at hd
    simp only [Option.getD_some] at hd
    exact string_data_inj _ _ (List.append_cancel_left (List.append_cancel_left
      (List.append_cancel_left (List.append_cancel_left hd))))

/-- C7, witness for the amended statement at concrete inputs. -/
theorem C7_amended_witness :
    (generateSignature "K" "P" "/api/v2/shop/get_shop_info" 7 (some "tok") (some "555") =
      bytesToHex (hmacSha256 (utf8Encode "K")
        (specSignPayload "P" "/api/v2/shop/get_shop_info" 7 (some "tok") (some "555")))) ∧
    (generateSignature "K" "P" "/api/v2/shop/get_shop_info" 7 (some "tok") (some "555")).length
      = 64 := by
  obtain ⟨h1, h2, -⟩ := C7_amended "K" "P" "/api/v2/shop/get_shop_info" 7
    (some "tok") (some "555")
  exact ⟨h1, h2⟩

end Shopee
